import Mathlib

/-! Go-ProxyCheck: a shallow embedding of `main.go`.

Conventions of the embedding.

* A Go `string` is a Lean `String`; `[]byte(s)` is its UTF-8 encoding and `len(s)` its
  length in bytes.
* Everything the outside world decides during one call of `testProxy` (the random draw,
  the outcome of every network operation, the reading of the monotonic clock) is collected
  in a record `Net`; a probe is a pure function of its arguments and of that record.
* Next to its Go return value a probe returns the list of network operations it issued
  (`NetEvent`), so that what is sent on the wire can be stated.
* A Go runtime panic is an `Except.error`.
* A probe function gives what the call returns once its network operations have returned.
  The two operations that have no deadline, the read of `testSOCKS4Proxy` (line 383) and
  the dial of `testSOCKS5Proxy` through the proxy (line 415), may never return; whether they
  do is recorded apart, in a record `Blocking`, and decides in the dispatch loop whether
  the step of a goroutine past its call of `testProxy` can be taken at all.
-/

namespace ProxyCheck

/-! ## Constants (lines 52-56) -/

/-- The constant `maxWorkers`. -/
def maxWorkers : Nat := 500

/-- The constant `maxConcurrentConnections`. -/
def maxConcurrentConnections : Nat := 2000

/-- The constant `connectionTimeout`, a `time.Duration` in nanoseconds. -/
def connectionTimeout : Nat := 10 * 1000000000

/-- The constant `http.StatusOK`. -/
def StatusOK : Int := 200

/-! ## Library functions used by the probes -/

/-- The conversion `[]byte(s)`. -/
def goBytes (s : String) : List UInt8 := s.toUTF8.data.toList

/-- The method `Duration.Milliseconds` on a duration given in nanoseconds. The duration is
`time.Since(start)` for a `start` taken from `time.Now()`, measured on the monotonic clock,
hence a natural number. -/
def Milliseconds (d : Nat) : Nat := d / 1000000

/-- The call `fmt.Sprintf("%d ms", ms)`. -/
def sprintfMs (ms : Nat) : String := toString ms ++ " ms"

/-- The call `conn.Read(buf)` when the peer delivers `data`: at most `len(buf)` bytes are
copied to the front of `buf`, the rest of `buf` is untouched; the count is returned too. -/
def connRead (buf data : List UInt8) : List UInt8 × Nat :=
  let n := min data.length buf.length
  (data.take n ++ buf.drop n, n)

/-- Runtime panics that `main.go` can raise. -/
inductive Panic
  | intnInvalidArgument
  | indexOutOfRange
  | negativeWaitGroupCounter
  deriving DecidableEq

/-- The call `rand.Intn(n)`: panics when `n <= 0`, otherwise a value in `[0, n)`, here the
draw `r` of the random source reduced modulo `n`. -/
def Intn (r : Nat) (n : Nat) : Except Panic Nat :=
  if n = 0 then .error .intnInvalidArgument else .ok (r % n)

/-- Outcome of `client.Get(targetURL)`: a non-nil error (a timeout included) or a response
carrying a status code. -/
inductive GetResult
  | err
  | resp (statusCode : Int)
  deriving DecidableEq

/-- The `http.Client` built at lines 333-340: the string that its transport's `Proxy`
callback hands to `url.Parse`, and its `Timeout`. -/
structure Client where
  proxyURL : String
  timeout : Nat
  deriving DecidableEq

/-- Network operations issued by a probe, in order. -/
inductive NetEvent
  | get (client : Client) (url : String)
  | dialTimeout (address : String) (timeout : Nat)
  | write (request : List UInt8)
  | read (bufLen : Nat)
  | socks5 (address : String) (timeout : Nat)
  | socks5Dial (address : String)
  deriving DecidableEq

/-- What the outside world does during one call of `testProxy`. -/
structure Net where
  /-- the draw of the random source used by `rand.Intn` -/
  rand : Nat
  /-- outcome of `client.Get` -/
  httpGet : GetResult
  /-- `net.DialTimeout` returned an error -/
  dialErr : Bool
  /-- `conn.Write` returned an error -/
  writeErr : Bool
  /-- bytes the proxy delivers to the single `conn.Read` -/
  readData : List UInt8
  /-- `conn.Read` returned an error -/
  readErr : Bool
  /-- `proxy.SOCKS5` returned an error -/
  socks5Err : Bool
  /-- `dialer.Dial` returned an error -/
  socks5DialErr : Bool
  /-- `time.Since(start)` in nanoseconds, at the place where the probe evaluates it -/
  elapsed : Nat

/-! ## Target selection and the probes (lines 279-422) -/

/-- The function `getRandomTargetSite` over the global `targetSites`. -/
def getRandomTargetSite (targetSites : List String) (r : Nat) : Except Panic String :=
  match Intn r targetSites.length with
  | .error p => .error p
  | .ok index =>
    match targetSites[index]? with
    | some site => .ok site
    | none => .error .indexOutOfRange

/-- The function `testHTTPProxy`, with the operations it issues. -/
def testHTTPProxyTrace (proxyAddress targetURL : String) (net : Net) :
    (Bool × String) × List NetEvent :=
  let client : Client := { proxyURL := "http://" ++ proxyAddress, timeout := connectionTimeout }
  let ev := [NetEvent.get client targetURL]
  match net.httpGet with
  | .resp statusCode =>
    if statusCode = StatusOK then
      ((true, sprintfMs (Milliseconds net.elapsed)), ev)
    else ((false, ""), ev)
  | .err => ((false, ""), ev)

/-- The function `testHTTPProxy`. -/
def testHTTPProxy (proxyAddress targetURL : String) (net : Net) : Bool × String :=
  (testHTTPProxyTrace proxyAddress targetURL net).1

/-- The function `testSOCKS4Proxy`, with the operations it issues. -/
def testSOCKS4ProxyTrace (proxyAddress targetURL : String) (net : Net) :
    (Bool × String) × List NetEvent :=
  let ev := [NetEvent.dialTimeout proxyAddress connectionTimeout]
  if net.dialErr then ((false, ""), ev) else
  let request : List UInt8 := [0x04, 0x01, 0x00, 0x50]
  let request := request ++ goBytes targetURL
  let request := request ++ [0x00]
  let ev := ev ++ [NetEvent.write request]
  if net.writeErr then ((false, ""), ev) else
  let response : List UInt8 := List.replicate 8 0
  let response := (connRead response net.readData).1
  let ev := ev ++ [NetEvent.read 8]
  if net.readErr then ((false, ""), ev) else
  if response[0]! ≠ 0x00 ∨ response[1]! ≠ 0x5a then ((false, ""), ev) else
  ((true, sprintfMs (Milliseconds net.elapsed)), ev)

/-- The function `testSOCKS4Proxy`. -/
def testSOCKS4Proxy (proxyAddress targetURL : String) (net : Net) : Bool × String :=
  (testSOCKS4ProxyTrace proxyAddress targetURL net).1

/-- The function `testSOCKS5Proxy`, with the operations it issues. -/
def testSOCKS5ProxyTrace (proxyAddress targetURL : String) (net : Net) :
    (Bool × String) × List NetEvent :=
  let ev := [NetEvent.socks5 proxyAddress connectionTimeout]
  if net.socks5Err then ((false, ""), ev) else
  let ev := ev ++ [NetEvent.socks5Dial targetURL]
  if !net.socks5DialErr then
    ((true, sprintfMs (Milliseconds net.elapsed)), ev)
  else ((false, ""), ev)

/-- The function `testSOCKS5Proxy`. -/
def testSOCKS5Proxy (proxyAddress targetURL : String) (net : Net) : Bool × String :=
  (testSOCKS5ProxyTrace proxyAddress targetURL net).1

/-- The function `testProxy`, with the operations it issues. -/
def testProxyTrace (targetSites : List String) (proxyAddress proxyType : String) (net : Net) :
    Except Panic ((Bool × String) × List NetEvent) :=
  match getRandomTargetSite targetSites net.rand with
  | .error p => .error p
  | .ok targetURL =>
    if proxyType = "HTTP" then .ok (testHTTPProxyTrace proxyAddress targetURL net)
    else if proxyType = "SOCKS4" then .ok (testSOCKS4ProxyTrace proxyAddress targetURL net)
    else if proxyType = "SOCKS5" then .ok (testSOCKS5ProxyTrace proxyAddress targetURL net)
    else .ok ((false, ""), [])

/-- The function `testProxy`. -/
def testProxy (targetSites : List String) (proxyAddress proxyType : String) (net : Net) :
    Except Panic (Bool × String) :=
  match testProxyTrace targetSites proxyAddress proxyType net with
  | .error p => .error p
  | .ok r => .ok r.1

/-- The network operations of a probe that have no deadline, and whether they block for
ever: `conn.Read` at line 383 (`connectionTimeout` bounds only `net.DialTimeout`), and
`dialer.Dial` at line 415 (the timeout of the forwarding `net.Dialer` bounds only the
connection to the proxy, not the SOCKS5 exchange that follows). -/
structure Blocking where
  read : Bool
  socks5Dial : Bool
  deriving DecidableEq

/-- Whether a call of `testProxy` that does not panic returns. `client.Get` always returns,
the client having a `Timeout`; `testSOCKS4Proxy` returns unless it gets as far as its read
and the read blocks; `testSOCKS5Proxy` returns unless it gets as far as its dial and the
dial blocks; for any other type no network operation is made. -/
def testProxyReturns (proxyType : String) (net : Net) (blocking : Blocking) : Bool :=
  if proxyType = "HTTP" then true
  else if proxyType = "SOCKS4" then net.dialErr || net.writeErr || !blocking.read
  else if proxyType = "SOCKS5" then net.socks5Err || !blocking.socks5Dial
  else true

/-! ## `main`: set-up (lines 77-116), reporting (lines 147-158, 531-544) -/

/-- What `main` prints or does to the outside world; the colour codes and the layout of
the console lines are left out. -/
inductive Output
  | errorReadTargetSites
  | errorScanTargetSites
  | errorReadingProxies
  | errorNoProxies
  | errorInvalidChoice
  | live (proxy result : String)
  | dead (proxy : String)
  | noWorking (proxyType : String)
  | writeFile (fileName : String) (lines : List String)
  | summary (sites lines live dead : Int)
  | sleep (seconds : Nat)
  deriving DecidableEq

/-- What `os.Open` followed by a `bufio.Scanner` loop yields for a file: the open fails, or
the scanner returns lines and then possibly an error. -/
inductive FileScan
  | openErr
  | scanned (lines : List String) (scanErr : Bool)
  deriving DecidableEq

/-- The predicate `unicode.IsSpace`. -/
def isSpace (c : Char) : Bool :=
  let n := c.toNat
  (9 ≤ n && n ≤ 13) || n = 32 || n = 0x85 || n = 0xA0 || n = 0x1680 ||
  (0x2000 ≤ n && n ≤ 0x200a) || n = 0x2028 || n = 0x2029 || n = 0x202f ||
  n = 0x205f || n = 0x3000

/-- The function `strings.TrimSpace`. -/
def TrimSpace (s : String) : String :=
  String.mk ((s.data.dropWhile isSpace).reverse.dropWhile isSpace).reverse

/-- The function `loadTargetSites`: the new value of the global `targetSites` and what is
printed. -/
def loadTargetSites (file : FileScan) (targetSites : List String) :
    List String × List Output :=
  match file with
  | .openErr => (targetSites, [.errorReadTargetSites])
  | .scanned lines scanErr =>
    (targetSites ++ lines.map TrimSpace, if scanErr then [.errorScanTargetSites] else [])

/-- The function `readProxiesFromFile`: the proxies and whether the error is non-nil. -/
def readProxiesFromFile (file : FileScan) : List String × Bool :=
  match file with
  | .openErr => ([], true)
  | .scanned lines scanErr => (lines.map TrimSpace, scanErr)

/-- How the first part of `main` (lines 78-116) ends: it returns after an error message, or
it goes on to the dispatch loop with the target pool, the proxy type and the proxies. -/
inductive Setup
  | exit (out : List Output)
  | dispatch (out : List Output) (targetSites : List String) (proxyType : String)
      (proxies : List String)
  deriving DecidableEq

/-- Lines 78-116 of `main`: `targetFile` is what reading `target_sites.txt` yields, `choice`
the number typed in, `proxyFile` what reading the proxy file yields. -/
def mainSetup (targetFile : FileScan) (choice : Int) (proxyFile : FileScan) : Setup :=
  let (targetSites, out) := loadTargetSites targetFile []
  let (proxies, err) := readProxiesFromFile proxyFile
  if err then .exit (out ++ [.errorReadingProxies])
  else if proxies.length = 0 then .exit (out ++ [.errorNoProxies])
  else if choice = 1 then .dispatch out targetSites "HTTP" proxies
  else if choice = 2 then .dispatch out targetSites "SOCKS4" proxies
  else if choice = 3 then .dispatch out targetSites "SOCKS5" proxies
  else .exit (out ++ [.errorInvalidChoice])

/-- The function `Summary`; `sites` is the value of `CountLines("target_sites.txt")`. -/
def Summary (sites lines proxies : Int) : Output :=
  .summary sites lines proxies (lines - proxies)

/-- Lines 149-157 of `main`, after `wg.Wait()` has returned. -/
def mainFinish (proxyType : String) (sites linecount : Int) (workingProxies : List String) :
    List Output :=
  if workingProxies.length = 0 then [.noWorking proxyType]
  else
    let fileNameOutput := "Working_" ++ proxyType ++ ".txt"
    [.writeFile fileNameOutput workingProxies,
     Summary sites linecount workingProxies.length,
     .sleep 15]

/-- Whether a `Summary` report is among the outputs. -/
def hasSummary : List Output → Bool
  | [] => false
  | .summary _ _ _ _ :: _ => true
  | _ :: out => hasSummary out

/-! ## `main`: the dispatch loop (lines 118-147) as a transition system

The main goroutine and the goroutine of every proxy take steps in any interleaving. A step
is one operation on shared state: a send or receive on one of the two buffered channels, a
`WaitGroup` operation, the `go` statement, or lines 135-143 of a goroutine (the call of
`testProxy`, which touches no shared state, with the handling of its outcome, whose `LIVE`
branch runs under `mu`). A send on a full channel and a receive on an empty one are not
enabled, and lines 135-143 of a goroutine are not enabled when its call of `testProxy`
blocks for ever. -/

/-- Parameters of one run of the dispatch loop. `net i` is what the outside world does
during the call of `testProxy` made for the proxy at index `i`, `blocking i` whether the
operations without a deadline of that call block for ever. -/
structure Config where
  maxWorkers : Nat
  maxConcurrentConnections : Nat
  targetSites : List String
  proxyType : String
  proxies : List String
  net : Nat → Net
  blocking : Nat → Blocking

/-- Where the main goroutine is: at the head of the `for` loop (line 125, or line 147 when
the range is used up), before `wg.Add(1)` (line 127), before the `go` statement (line 128),
or past `wg.Wait()`. -/
inductive MainPc
  | loop
  | add
  | spawn
  | joined
  deriving DecidableEq

/-- Where a spawned goroutine is: before `semaphore <- struct{}{}` (line 132), before the
call of `testProxy` returns (line 135), before the deferred `<-semaphore`, before the
deferred `<-workers`, before the deferred `wg.Done()`, or gone. -/
inductive Phase
  | acquire
  | probe
  | releaseConn
  | releaseWorker
  | done
  | exited
  deriving DecidableEq

/-- The four channel operations made for one proxy. -/
inductive SlotOp
  | takeWorker
  | takeConn
  | dropConn
  | dropWorker
  deriving DecidableEq

/-- State of the dispatch loop. `tasks[i]` is the goroutine spawned for `proxies[i]`;
`workers` and `semaphore` are the numbers of elements in the two channels, `wg` the
`WaitGroup` counter. `tested` and `slots` are history variables: the indices whose call of
`testProxy` has returned, and the channel operations made with the index of the proxy they
were made for, both in order of occurrence. -/
structure State where
  pc : MainPc
  tasks : List Phase
  workers : Nat
  semaphore : Nat
  wg : Nat
  workingProxies : List String
  out : List Output
  panicked : Option Panic
  tested : List Nat
  slots : List (Nat × SlotOp)
  deriving DecidableEq

/-- State at line 125, before the first iteration. -/
def State.init : State :=
  { pc := .loop, tasks := [], workers := 0, semaphore := 0, wg := 0, workingProxies := [],
    out := [], panicked := none, tested := [], slots := [] }

/-- The steps: four of the main goroutine, five of the goroutine with a given index. -/
inductive Action
  | send
  | add
  | go
  | wait
  | acquire (i : Nat)
  | test (i : Nat)
  | releaseConn (i : Nat)
  | releaseWorker (i : Nat)
  | wgDone (i : Nat)
  deriving DecidableEq

/-- The argument `proxy` of the goroutine with index `i`. -/
def Config.proxy (cfg : Config) (i : Nat) : String := cfg.proxies.getD i ""

/-- The call `testProxy(proxy, proxyType)` made by the goroutine with index `i`. -/
def Config.test (cfg : Config) (i : Nat) : Except Panic (Bool × String) :=
  testProxy cfg.targetSites (cfg.proxy i) cfg.proxyType (cfg.net i)

/-- Whether the call of `testProxy` made by the goroutine with index `i`, if it does not
panic, returns. -/
def Config.returns (cfg : Config) (i : Nat) : Bool :=
  testProxyReturns cfg.proxyType (cfg.net i) (cfg.blocking i)

/-- Whether the call of `testProxy` made by the goroutine with index `i` returns an
outcome: it neither panics nor blocks for ever. -/
def Config.answers (cfg : Config) (i : Nat) : Bool :=
  match cfg.test i with
  | .ok _ => cfg.returns i
  | .error _ => false

/-- One step; `none` when the step is not enabled. An uncaught panic ends the process: no
step is enabled after it. -/
def step (cfg : Config) (s : State) (a : Action) : Option State :=
  if s.panicked.isSome then none else
  match a with
  | .send =>
    -- line 126: `workers <- struct{}{}` for the next element of the range
    if s.pc = .loop ∧ s.tasks.length < cfg.proxies.length ∧ s.workers < cfg.maxWorkers then
      some { s with pc := .add, workers := s.workers + 1,
                    slots := s.slots ++ [(s.tasks.length, .takeWorker)] }
    else none
  | .add =>
    -- line 127: `wg.Add(1)`
    if s.pc = .add then some { s with pc := .spawn, wg := s.wg + 1 } else none
  | .go =>
    -- line 128: `go func(proxy string) {...}(proxy)`
    if s.pc = .spawn then some { s with pc := .loop, tasks := s.tasks ++ [.acquire] }
    else none
  | .wait =>
    -- line 147: `wg.Wait()` returns once the counter is zero
    if s.pc = .loop ∧ s.tasks.length = cfg.proxies.length ∧ s.wg = 0 then
      some { s with pc := .joined }
    else none
  | .acquire i =>
    -- line 132: `semaphore <- struct{}{}`
    if s.tasks[i]? = some .acquire ∧ s.semaphore < cfg.maxConcurrentConnections then
      some { s with tasks := s.tasks.set i .probe, semaphore := s.semaphore + 1,
                    slots := s.slots ++ [(i, .takeConn)] }
    else none
  | .test i =>
    -- lines 135-143
    if s.tasks[i]? = some .probe then
      match cfg.test i with
      | .error p => some { s with panicked := some p }
      | .ok (status, result) =>
        if cfg.returns i then
          if status then
            some { s with tasks := s.tasks.set i .releaseConn,
                          out := s.out ++ [.live (cfg.proxy i) result],
                          workingProxies :=
                            s.workingProxies ++ [cfg.proxy i ++ "   |  " ++ result],
                          tested := s.tested ++ [i] }
          else
            some { s with tasks := s.tasks.set i .releaseConn,
                          out := s.out ++ [.dead (cfg.proxy i)],
                          tested := s.tested ++ [i] }
        else none
    else none
  | .releaseConn i =>
    -- line 133, deferred: `<-semaphore`
    if s.tasks[i]? = some .releaseConn ∧ 0 < s.semaphore then
      some { s with tasks := s.tasks.set i .releaseWorker, semaphore := s.semaphore - 1,
                    slots := s.slots ++ [(i, .dropConn)] }
    else none
  | .releaseWorker i =>
    -- line 130, deferred: `<-workers`
    if s.tasks[i]? = some .releaseWorker ∧ 0 < s.workers then
      some { s with tasks := s.tasks.set i .done, workers := s.workers - 1,
                    slots := s.slots ++ [(i, .dropWorker)] }
    else none
  | .wgDone i =>
    -- line 129, deferred: `wg.Done()`, which panics on a negative counter
    if s.tasks[i]? = some .done then
      if s.wg = 0 then some { s with panicked := some .negativeWaitGroupCounter }
      else some { s with tasks := s.tasks.set i .exited, wg := s.wg - 1 }
    else none

/-- Run a list of steps from a state; `none` when one of them is not enabled. -/
def exec (cfg : Config) : State → List Action → Option State
  | s, [] => some s
  | s, a :: acts =>
    match step cfg s a with
    | some s' => exec cfg s' acts
    | none => none

/-- The states the dispatch loop can be in: those reached from `State.init` by some list of
steps. -/
def Reachable (cfg : Config) (s : State) : Prop :=
  ∃ acts, exec cfg State.init acts = some s

/-- The goroutine holds the worker slot taken for it at line 126: it was started and has
not yet run its deferred `<-workers`. -/
def Phase.holdsWorker : Phase → Bool
  | .acquire | .probe | .releaseConn | .releaseWorker => true
  | .done | .exited => false

/-- The goroutine holds a connection slot. -/
def Phase.holdsConn : Phase → Bool
  | .probe | .releaseConn => true
  | _ => false

/-- The goroutine is inside its call of `testProxy`. -/
def Phase.inProbe : Phase → Bool
  | .probe => true
  | _ => false

/-- The goroutine has not yet called `wg.Done()`. -/
def Phase.counted : Phase → Bool
  | .exited => false
  | _ => true

/-- The call of `testProxy` has returned and its outcome was handled. -/
def Phase.reported : Phase → Bool
  | .releaseConn | .releaseWorker | .done | .exited => true
  | _ => false

/-- Steps a goroutine in the given phase still has to take. -/
def Phase.remaining : Phase → Nat
  | .acquire => 5
  | .probe => 4
  | .releaseConn => 3
  | .releaseWorker => 2
  | .done => 1
  | .exited => 0

/-- Steps the main goroutine still has to take in the current iteration, or to join. -/
def MainPc.remaining : MainPc → Nat
  | .loop => 3
  | .add => 2
  | .spawn => 1
  | .joined => 0

/-- A bound on the number of steps that can still be taken from a state. -/
def State.measure (cfg : Config) (s : State) : Nat :=
  (s.tasks.map Phase.remaining).sum + 8 * (cfg.proxies.length - s.tasks.length)
    + s.pc.remaining + (if s.panicked.isSome then 0 else 1)

/-- The outcome of the call of `testProxy` for index `i` was success. -/
def Config.isLive (cfg : Config) (i : Nat) : Bool :=
  match cfg.test i with
  | .ok (true, _) => true
  | _ => false

/-- The string returned by the call of `testProxy` for index `i`. -/
def Config.result (cfg : Config) (i : Nat) : String :=
  match cfg.test i with
  | .ok (_, result) => result
  | .error _ => ""

/-- The channel operations made for the proxy at index `i`, in order of occurrence. -/
def slotOps (slots : List (Nat × SlotOp)) (i : Nat) : List SlotOp :=
  (slots.filter (fun e => e.1 == i)).map (fun e => e.2)

/-- The console line of a `DEAD` outcome. -/
def Output.isDead : Output → Bool
  | .dead _ => true
  | _ => false

/-- The requests handed to `conn.Write`, in order. -/
def writes : List NetEvent → List (List UInt8)
  | [] => []
  | .write request :: evs => request :: writes evs
  | _ :: evs => writes evs

/-- The strings handed to `url.Parse` by the `Proxy` callback of the clients used. -/
def parsedProxyURLs : List NetEvent → List String
  | [] => []
  | .get client _ :: evs => client.proxyURL :: parsedProxyURLs evs
  | _ :: evs => parsedProxyURLs evs

/-- A sample environment: every operation succeeds, the proxy grants the SOCKS4 request
with a full 8-byte reply, the HTTP status is 200 and 42 ms elapse. -/
def netGood : Net :=
  { rand := 0, httpGet := .resp 200, dialErr := false, writeErr := false,
    readData := [0x00, 0x5a, 0, 0, 0, 0, 0, 0], readErr := false,
    socks5Err := false, socks5DialErr := false, elapsed := 42000000 }

/-- A sample environment: every network operation fails. -/
def netBad : Net :=
  { rand := 0, httpGet := .err, dialErr := true, writeErr := true,
    readData := [], readErr := true,
    socks5Err := true, socks5DialErr := true, elapsed := 10000000000 }

/-- A sample environment: the SOCKS4 proxy delivers only the two bytes `0x00 0x5A` to the
read, which reports no error. -/
def netShort : Net := { netGood with readData := [0x00, 0x5a], elapsed := 7000000 }

/-- The channel operations that have been made for a goroutine in the given phase. -/
def Phase.ops : Phase → List SlotOp
  | .acquire => [.takeWorker]
  | .probe => [.takeWorker, .takeConn]
  | .releaseConn => [.takeWorker, .takeConn]
  | .releaseWorker => [.takeWorker, .takeConn, .dropConn]
  | .done => [.takeWorker, .takeConn, .dropConn, .dropWorker]
  | .exited => [.takeWorker, .takeConn, .dropConn, .dropWorker]

/-- The channel operations that have been made for index `i` according to the control
state: those of the phase of goroutine `i`, or, when goroutine `i` is not yet spawned, the
send of line 126 if the main goroutine has made it for `i`. -/
def State.expectedOps (s : State) (i : Nat) : List SlotOp :=
  match s.tasks[i]? with
  | some ph => ph.ops
  | none =>
    if i = s.tasks.length ∧ (s.pc = .add ∨ s.pc = .spawn) then [.takeWorker] else []

/-- The entry appended to `workingProxies` for index `i` (line 139). -/
def Config.entry (cfg : Config) (i : Nat) : String :=
  cfg.proxy i ++ "   |  " ++ cfg.result i

/-- The console line printed for index `i` (lines 138 and 142). -/
def Config.line (cfg : Config) (i : Nat) : Output :=
  if cfg.isLive i then .live (cfg.proxy i) (cfg.result i) else .dead (cfg.proxy i)

/-- The step relation, one rule for each way a step can be taken. -/
inductive Step (cfg : Config) (s : State) : Action → State → Prop
  | send (hpc : s.pc = .loop) (hlen : s.tasks.length < cfg.proxies.length)
      (hw : s.workers < cfg.maxWorkers) :
      Step cfg s .send
        { s with pc := .add, workers := s.workers + 1,
                 slots := s.slots ++ [(s.tasks.length, .takeWorker)] }
  | add (hpc : s.pc = .add) : Step cfg s .add { s with pc := .spawn, wg := s.wg + 1 }
  | go (hpc : s.pc = .spawn) :
      Step cfg s .go { s with pc := .loop, tasks := s.tasks ++ [.acquire] }
  | wait (hpc : s.pc = .loop) (hlen : s.tasks.length = cfg.proxies.length)
      (hwg : s.wg = 0) : Step cfg s .wait { s with pc := .joined }
  | acquire (i : Nat) (hph : s.tasks[i]? = some .acquire)
      (hsem : s.semaphore < cfg.maxConcurrentConnections) :
      Step cfg s (.acquire i)
        { s with tasks := s.tasks.set i .probe, semaphore := s.semaphore + 1,
                 slots := s.slots ++ [(i, .takeConn)] }
  | testPanic (i : Nat) (p : Panic) (hph : s.tasks[i]? = some .probe)
      (ht : cfg.test i = .error p) :
      Step cfg s (.test i) { s with panicked := some p }
  | testLive (i : Nat) (result : String) (hph : s.tasks[i]? = some .probe)
      (ht : cfg.test i = .ok (true, result)) (hret : cfg.returns i = true) :
      Step cfg s (.test i)
        { s with tasks := s.tasks.set i .releaseConn,
                 out := s.out ++ [.live (cfg.proxy i) result],
                 workingProxies := s.workingProxies ++ [cfg.proxy i ++ "   |  " ++ result],
                 tested := s.tested ++ [i] }
  | testDead (i : Nat) (result : String) (hph : s.tasks[i]? = some .probe)
      (ht : cfg.test i = .ok (false, result)) (hret : cfg.returns i = true) :
      Step cfg s (.test i)
        { s with tasks := s.tasks.set i .releaseConn,
                 out := s.out ++ [.dead (cfg.proxy i)],
                 tested := s.tested ++ [i] }
  | releaseConn (i : Nat) (hph : s.tasks[i]? = some .releaseConn) (hsem : 0 < s.semaphore) :
      Step cfg s (.releaseConn i)
        { s with tasks := s.tasks.set i .releaseWorker, semaphore := s.semaphore - 1,
                 slots := s.slots ++ [(i, .dropConn)] }
  | releaseWorker (i : Nat) (hph : s.tasks[i]? = some .releaseWorker) (hw : 0 < s.workers) :
      Step cfg s (.releaseWorker i)
        { s with tasks := s.tasks.set i .done, workers := s.workers - 1,
                 slots := s.slots ++ [(i, .dropWorker)] }
  | wgDonePanic (i : Nat) (hph : s.tasks[i]? = some .done) (hwg : s.wg = 0) :
      Step cfg s (.wgDone i) { s with panicked := some .negativeWaitGroupCounter }
  | wgDone (i : Nat) (hph : s.tasks[i]? = some .done) (hwg : s.wg ≠ 0) :
      Step cfg s (.wgDone i) { s with tasks := s.tasks.set i .exited, wg := s.wg - 1 }

/-- The invariant of the dispatch loop: the channel lengths and the `WaitGroup` counter
count goroutines by phase, the channels respect their capacities, the loop index stays
within the range, and the history variables agree with the control state. -/
structure Inv (cfg : Config) (s : State) : Prop where
  workers_eq : s.workers = s.tasks.countP Phase.holdsWorker
      + (if s.pc = .add ∨ s.pc = .spawn then 1 else 0)
  sem_eq : s.semaphore = s.tasks.countP Phase.holdsConn
  wg_eq : s.wg = s.tasks.countP Phase.counted + (if s.pc = .spawn then 1 else 0)
  workers_le : s.workers ≤ cfg.maxWorkers
  sem_le : s.semaphore ≤ cfg.maxConcurrentConnections
  len_le : s.tasks.length ≤ cfg.proxies.length
  len_lt : s.pc = .add ∨ s.pc = .spawn → s.tasks.length < cfg.proxies.length
  joined : s.pc = .joined → s.tasks.length = cfg.proxies.length ∧ s.wg = 0
  tested_nodup : s.tested.Nodup
  tested_mem : ∀ i, i ∈ s.tested ↔ ∃ ph, s.tasks[i]? = some ph ∧ ph.reported = true
  working_eq : s.workingProxies = (s.tested.filter cfg.isLive).map cfg.entry
  out_eq : s.out = s.tested.map cfg.line
  slots_eq : ∀ i, slotOps s.slots i = s.expectedOps i

/-! ## Sample runs -/

/-- A sample configuration: both ceilings are 1, the pool has one target, and of two HTTP
proxies the first answers with status 200 after 42 ms and the second cannot be reached. -/
def cfgDemo : Config :=
  { maxWorkers := 1, maxConcurrentConnections := 1, targetSites := ["http://example.com"],
    proxyType := "HTTP", proxies := ["1.2.3.4:8080", "5.6.7.8:3128"],
    net := fun i => if i = 0 then netGood else netBad,
    blocking := fun _ => { read := false, socks5Dial := false } }

/-- A complete schedule for `cfgDemo`: the second goroutine is started as soon as the first
has given back its worker slot. -/
def runDemo : List Action :=
  [.send, .add, .go, .acquire 0, .test 0, .releaseConn 0, .releaseWorker 0,
   .send, .add, .go, .wgDone 0, .acquire 1, .test 1, .releaseConn 1, .releaseWorker 1,
   .wgDone 1, .wait]

/-- The state `cfgDemo` is in after `runDemo`. -/
def stateDemo : State :=
  { pc := .joined, tasks := [.exited, .exited], workers := 0, semaphore := 0, wg := 0,
    workingProxies := ["1.2.3.4:8080   |  42 ms"],
    out := [.live "1.2.3.4:8080" "42 ms", .dead "5.6.7.8:3128"],
    panicked := none, tested := [0, 1],
    slots := [(0, .takeWorker), (0, .takeConn), (0, .dropConn), (0, .dropWorker),
              (1, .takeWorker), (1, .takeConn), (1, .dropConn), (1, .dropWorker)] }

/-- The state `cfgDemo` is in after the first five steps of `runDemo`: the first goroutine
has had its probe answered and still holds both slots. -/
def stateDemoMid : State :=
  { pc := .loop, tasks := [.releaseConn], workers := 1, semaphore := 1, wg := 1,
    workingProxies := ["1.2.3.4:8080   |  42 ms"],
    out := [.live "1.2.3.4:8080" "42 ms"],
    panicked := none, tested := [0],
    slots := [(0, .takeWorker), (0, .takeConn)] }

/-- A sample configuration with the ceilings of the source, in which the only proxy cannot
be reached. -/
def cfgDead : Config :=
  { maxWorkers := maxWorkers, maxConcurrentConnections := maxConcurrentConnections,
    targetSites := ["http://example.com"], proxyType := "HTTP",
    proxies := ["1.2.3.4:8080"], net := fun _ => netBad,
    blocking := fun _ => { read := false, socks5Dial := false } }

/-- The complete schedule for a single proxy. -/
def runSingle : List Action :=
  [.send, .add, .go, .acquire 0, .test 0, .releaseConn 0, .releaseWorker 0, .wgDone 0, .wait]

/-- The state `cfgDead` is in after `runSingle`. -/
def stateDead : State :=
  { pc := .joined, tasks := [.exited], workers := 0, semaphore := 0, wg := 0,
    workingProxies := [], out := [.dead "1.2.3.4:8080"], panicked := none, tested := [0],
    slots := [(0, .takeWorker), (0, .takeConn), (0, .dropConn), (0, .dropWorker)] }

/-- The configuration `main` dispatches with when `target_sites.txt` cannot be opened, the
choice is 1 and the proxy file holds the single line `1.2.3.4:8080`. -/
def cfgNoTargets : Config :=
  { maxWorkers := maxWorkers, maxConcurrentConnections := maxConcurrentConnections,
    targetSites := [], proxyType := "HTTP", proxies := ["1.2.3.4:8080"],
    net := fun _ => netGood,
    blocking := fun _ => { read := false, socks5Dial := false } }

/-! ## Counting and scanning the lines of a file (lines 208-228, 508-515)

The content of a file is a `String`, `none` standing for a file that cannot be read. The
byte `0x0A` occurs in UTF-8 only as the newline character, so splitting the bytes at `"\n"`
is splitting the characters at the newline character. -/

/-- The call `strings.Split(s, "\n")` on the characters of `s`: the pieces between
newlines, one more than there are newlines. -/
def splitNewline : List Char → List (List Char)
  | [] => [[]]
  | c :: cs =>
    if c.toNat = 10 then [] :: splitNewline cs
    else
      match splitNewline cs with
      | [] => [[c]]
      | piece :: pieces => (c :: piece) :: pieces

/-- The function `CountLines` on the outcome of `ioutil.ReadFile`: the count and whether
the error is non-nil. -/
def CountLines (file : Option String) : Int × Bool :=
  match file with
  | none => (0, true)
  | some data =>
    let lines := splitNewline data.data
    ((lines.length : Nat), false)

/-- The constant `bufio.MaxScanTokenSize`. -/
def MaxScanTokenSize : Nat := 64 * 1024

/-- The function `dropCR` of `bufio`: one trailing carriage return is dropped. -/
def dropCR (data : List Char) : List Char :=
  match data.getLast? with
  | some c => if c.toNat = 13 then data.dropLast else data
  | none => data

/-- The loop `for scanner.Scan() { ... scanner.Text() ... }` with the default split
function `bufio.ScanLines`, on the pieces between newlines of the content: every piece
that a newline ends is a token, the piece after the last newline is a token unless it is
empty, tokens have `dropCR` applied, and a piece of `MaxScanTokenSize` bytes or more stops
the scan with `bufio.ErrTooLong`. The result is the tokens and whether `scanner.Err()` is
non-nil. -/
def scanPieces : List (List Char) → List String × Bool
  | [] => ([], false)
  | [piece] =>
    if piece = [] then ([], false)
    else if MaxScanTokenSize ≤ (String.mk piece).utf8ByteSize then ([], true)
    else ([String.mk (dropCR piece)], false)
  | piece :: rest =>
    if MaxScanTokenSize ≤ (String.mk piece).utf8ByteSize then ([], true)
    else
      let (tokens, err) := scanPieces rest
      (String.mk (dropCR piece) :: tokens, err)

/-- What `os.Open` followed by the scanner loop yields for a file with the given content. -/
def scanFile (file : Option String) : FileScan :=
  match file with
  | none => .openErr
  | some data =>
    let (lines, err) := scanPieces (splitNewline data.data)
    .scanned lines err

/-- A sample configuration with the ceilings of the source, in which the only proxy answers
with status 200 after 42 ms. -/
def cfgLive : Config :=
  { maxWorkers := maxWorkers, maxConcurrentConnections := maxConcurrentConnections,
    targetSites := ["http://example.com"], proxyType := "HTTP",
    proxies := ["1.2.3.4:8080"], net := fun _ => netGood,
    blocking := fun _ => { read := false, socks5Dial := false } }

/-- The state `cfgLive` is in after `runSingle`. -/
def stateLive : State :=
  { pc := .joined, tasks := [.exited], workers := 0, semaphore := 0, wg := 0,
    workingProxies := ["1.2.3.4:8080   |  42 ms"],
    out := [.live "1.2.3.4:8080" "42 ms"], panicked := none, tested := [0],
    slots := [(0, .takeWorker), (0, .takeConn), (0, .dropConn), (0, .dropWorker)] }

/-- Whether the content ends with a newline. -/
def endsWithNewline (data : String) : Bool :=
  match data.data.getLast? with
  | some c => c.toNat = 10
  | none => false

/-- A sample proxy file: the one line `1.2.3.4:8080`, ended by a newline. -/
def proxyFileDemo : String := "1.2.3.4:8080\n"

/-- A sample `target_sites.txt`: the one line `http://example.com`, ended by a newline. -/
def targetFileDemo : String := "http://example.com\n"

theorem sprintfMs_ne_empty (ms : Nat) : sprintfMs ms ≠ "" := by
  intro h
  have hl := congrArg String.length h
  simp [sprintfMs, String.length_append] at hl
  have h3 : " ms".length = 3 := by decide
  have h0 : "".length = 0 := by decide
  omega

/-- C1: `testHTTPProxy` reports success exactly when `client.Get` returned no error and a
response whose status code is 200; for every other outcome (a transport error, or any
other status code such as 301, 404 or 500) it returns `(false, "")`. -/
theorem testHTTPProxy_success_iff (proxyAddress targetURL : String) (net : Net) :
    ((testHTTPProxy proxyAddress targetURL net).1 = true ↔ net.httpGet = GetResult.resp 200) ∧
    (net.httpGet ≠ GetResult.resp 200 →
      testHTTPProxy proxyAddress targetURL net = (false, "")) ∧
    (∀ s : Int, s ≠ 200 →
      testHTTPProxy proxyAddress targetURL { net with httpGet := GetResult.resp s }
        = (false, "")) := by
  refine ⟨?_, ?_, ?_⟩
  · unfold testHTTPProxy testHTTPProxyTrace StatusOK
    cases h : net.httpGet with
    | err => simp
    | resp s => by_cases hs : s = 200 <;> simp [hs]
  · intro hne
    unfold testHTTPProxy testHTTPProxyTrace StatusOK
    cases h : net.httpGet with
    | err => simp
    | resp s =>
      have hs : s ≠ 200 := fun e => hne (by rw [h, e])
      simp [hs]
  · intro s hs
    simp [testHTTPProxy, testHTTPProxyTrace, StatusOK, hs]

theorem connRead_zero_buffer (data : List UInt8) :
    ((connRead (List.replicate 8 0) data).1[0]! = 0x00 ∧
      (connRead (List.replicate 8 0) data).1[1]! = 0x5a) ↔
    (data[0]? = some 0x00 ∧ data[1]? = some 0x5a) := by
  match data with
  | [] => simp [connRead]
  | [a] => simp [connRead]
  | a :: b :: rest =>
    have hn : min (rest.length + 1 + 1) 8 = min rest.length 6 + 2 := by omega
    simp [connRead, hn, List.take]

/-- C2 (as the code has it): `testSOCKS4Proxy` reports success exactly when the dial, the
write and the read report no error and the first two bytes delivered to the read are
`0x00` and `0x5A`; in every other case, in particular when the second byte is not `0x5A`
or fewer than two bytes were delivered, it returns `(false, "")`. The number of bytes
delivered beyond the second plays no part. -/
theorem testSOCKS4Proxy_reply (proxyAddress targetURL : String) (net : Net) :
    testSOCKS4Proxy proxyAddress targetURL net =
      if net.dialErr = false ∧ net.writeErr = false ∧ net.readErr = false ∧
          net.readData[0]? = some 0x00 ∧ net.readData[1]? = some 0x5a
      then (true, sprintfMs (Milliseconds net.elapsed)) else (false, "") := by
  have hbuf := connRead_zero_buffer net.readData
  have e : List.replicate 8 (0 : UInt8) = [0, 0, 0, 0, 0, 0, 0, 0] := rfl
  rw [e] at hbuf
  unfold testSOCKS4Proxy testSOCKS4ProxyTrace
  cases hd : net.dialErr <;> cases hw : net.writeErr <;> cases hr : net.readErr <;> simp
  by_cases h : net.readData[0]? = some 0x00 ∧ net.readData[1]? = some 0x5a
  · have h2 := hbuf.2 h
    rw [if_neg (by simp [h2.1, h2.2]), if_pos h]
  · have h2 : ¬ ((connRead [0, 0, 0, 0, 0, 0, 0, 0] net.readData).1[0]! = 0x00 ∧
        (connRead [0, 0, 0, 0, 0, 0, 0, 0] net.readData).1[1]! = 0x5a) := fun c => h (hbuf.1 c)
    rw [if_pos (by
      by_contra hc
      push_neg at hc
      exact h2 hc), if_neg h]

/-- C2 (counterexample to the claim as stated): a reply truncated to two bytes, `0x00 0x5A`,
whose read reports no error, is accepted: the probe returns success with a latency. -/
theorem testSOCKS4Proxy_truncated_reply_accepted :
    netShort.readData.length = 2 ∧ netShort.readErr = false ∧
    testSOCKS4Proxy "1.2.3.4:1080" "example.com" netShort = (true, "7 ms") ∧
    testSOCKS4Proxy "1.2.3.4:1080" "example.com" netShort ≠ (false, "") := by
  decide

/-- C3: when the dial succeeds, the only request `testSOCKS4Proxy` writes is the bytes
`04 01 00 50`, then the bytes of the target, then one `00`; it has `len(target) + 5` bytes,
its port field is `00 50`, and it is the same for every proxy address and outcome. -/
theorem testSOCKS4Proxy_request (proxyAddress targetURL : String) (net : Net) :
    writes (testSOCKS4ProxyTrace proxyAddress targetURL net).2 =
      (if net.dialErr then []
       else [[0x04, 0x01, 0x00, 0x50] ++ goBytes targetURL ++ [0x00]]) ∧
    ([0x04, 0x01, 0x00, 0x50] ++ goBytes targetURL ++ [0x00]).length
      = targetURL.utf8ByteSize + 5 ∧
    (([0x04, 0x01, 0x00, 0x50] ++ goBytes targetURL ++ [0x00]).take 4 : List UInt8)
      = [0x04, 0x01, 0x00, 0x50] := by
  refine ⟨?_, ?_, ?_⟩
  · unfold testSOCKS4ProxyTrace
    cases hd : net.dialErr
    · simp only [Bool.false_eq_true, if_false]
      split_ifs <;> simp [writes]
    · simp [writes]
  · have h := String.size_toUTF8 targetURL
    simp only [ByteArray.size, Array.size] at h
    simp [goBytes, h]
  · simp

theorem getRandomTargetSite_ok (targetSites : List String) (r : Nat)
    (hpool : targetSites ≠ []) : ∃ site, getRandomTargetSite targetSites r = Except.ok site := by
  have hlen : targetSites.length ≠ 0 := by
    intro h; exact hpool (List.length_eq_zero.mp h)
  have hlt : r % targetSites.length < targetSites.length :=
    Nat.mod_lt _ (Nat.pos_of_ne_zero hlen)
  refine ⟨targetSites[r % targetSites.length], ?_⟩
  simp [getRandomTargetSite, Intn, hlen, List.getElem?_eq_getElem hlt]

theorem testHTTPProxy_cases (proxyAddress site : String) (net : Net) :
    testHTTPProxy proxyAddress site net = (true, sprintfMs (Milliseconds net.elapsed)) ∨
    testHTTPProxy proxyAddress site net = (false, "") := by
  unfold testHTTPProxy testHTTPProxyTrace
  cases net.httpGet with
  | err => simp
  | resp s => by_cases hs : s = StatusOK <;> simp [hs]

theorem testSOCKS4Proxy_cases (proxyAddress site : String) (net : Net) :
    testSOCKS4Proxy proxyAddress site net = (true, sprintfMs (Milliseconds net.elapsed)) ∨
    testSOCKS4Proxy proxyAddress site net = (false, "") := by
  have hbuf := connRead_zero_buffer net.readData
  have e : List.replicate 8 (0 : UInt8) = [0, 0, 0, 0, 0, 0, 0, 0] := rfl
  rw [e] at hbuf
  unfold testSOCKS4Proxy testSOCKS4ProxyTrace
  cases hd : net.dialErr <;> cases hw : net.writeErr <;> cases hr : net.readErr <;> simp
  split_ifs <;> simp

theorem testSOCKS5Proxy_cases (proxyAddress site : String) (net : Net) :
    testSOCKS5Proxy proxyAddress site net = (true, sprintfMs (Milliseconds net.elapsed)) ∨
    testSOCKS5Proxy proxyAddress site net = (false, "") := by
  unfold testSOCKS5Proxy testSOCKS5ProxyTrace
  cases net.socks5Err <;> cases net.socks5DialErr <;> simp

/-- Whenever `testProxy` returns, it returns either success with the formatted latency or
failure with the empty string. -/
theorem testProxy_cases {targetSites : List String} {proxyAddress proxyType : String}
    {net : Net} {r : Bool × String}
    (h : testProxy targetSites proxyAddress proxyType net = Except.ok r) :
    r = (true, sprintfMs (Milliseconds net.elapsed)) ∨ r = (false, "") := by
  unfold testProxy testProxyTrace at h
  cases hsite : getRandomTargetSite targetSites net.rand with
  | error p => simp [hsite] at h
  | ok site =>
    simp only [hsite] at h
    by_cases h1 : proxyType = "HTTP"
    · rw [if_pos h1] at h
      cases h
      exact testHTTPProxy_cases proxyAddress site net
    · by_cases h2 : proxyType = "SOCKS4"
      · rw [if_neg h1, if_pos h2] at h
        cases h
        exact testSOCKS4Proxy_cases proxyAddress site net
      · by_cases h3 : proxyType = "SOCKS5"
        · rw [if_neg h1, if_neg h2, if_pos h3] at h
          cases h
          exact testSOCKS5Proxy_cases proxyAddress site net
        · rw [if_neg h1, if_neg h2, if_neg h3] at h
          cases h
          exact Or.inr rfl

/-- With a non-empty target pool `testProxy` returns: it does not panic. -/
theorem testProxy_isOk (targetSites : List String) (proxyAddress proxyType : String)
    (net : Net) (hpool : targetSites ≠ []) :
    ∃ r, testProxy targetSites proxyAddress proxyType net = Except.ok r := by
  obtain ⟨site, hsite⟩ := getRandomTargetSite_ok targetSites net.rand hpool
  unfold testProxy testProxyTrace
  simp only [hsite]
  by_cases h1 : proxyType = "HTTP"
  · exact ⟨_, by rw [if_pos h1]⟩
  · by_cases h2 : proxyType = "SOCKS4"
    · exact ⟨_, by rw [if_neg h1, if_pos h2]⟩
    · by_cases h3 : proxyType = "SOCKS5"
      · exact ⟨_, by rw [if_neg h1, if_neg h2, if_pos h3]⟩
      · exact ⟨_, by rw [if_neg h1, if_neg h2, if_neg h3]⟩

theorem testHTTPProxy_value (proxyAddress site : String) (net : Net) :
    testHTTPProxy proxyAddress site net =
      if net.httpGet = GetResult.resp 200 then (true, sprintfMs (Milliseconds net.elapsed))
      else (false, "") := by
  unfold testHTTPProxy testHTTPProxyTrace StatusOK
  cases h : net.httpGet with
  | err => simp
  | resp s => by_cases hs : s = 200 <;> simp [hs]

theorem testSOCKS4Proxy_value (proxyAddress site : String) (net : Net) :
    testSOCKS4Proxy proxyAddress site net =
      if net.dialErr = false ∧ net.writeErr = false ∧ net.readErr = false ∧
          net.readData[0]? = some 0x00 ∧ net.readData[1]? = some 0x5a
      then (true, sprintfMs (Milliseconds net.elapsed)) else (false, "") := by
  have hbuf := connRead_zero_buffer net.readData
  have e : List.replicate 8 (0 : UInt8) = [0, 0, 0, 0, 0, 0, 0, 0] := rfl
  rw [e] at hbuf
  unfold testSOCKS4Proxy testSOCKS4ProxyTrace
  cases hd : net.dialErr <;> cases hw : net.writeErr <;> cases hr : net.readErr <;> simp
  by_cases h : net.readData[0]? = some 0x00 ∧ net.readData[1]? = some 0x5a
  · have h2 := hbuf.2 h
    rw [if_neg (by simp [h2.1, h2.2]), if_pos h]
  · have h2 : ¬ ((connRead [0, 0, 0, 0, 0, 0, 0, 0] net.readData).1[0]! = 0x00 ∧
        (connRead [0, 0, 0, 0, 0, 0, 0, 0] net.readData).1[1]! = 0x5a) := fun c => h (hbuf.1 c)
    rw [if_pos (by
      by_contra hc
      push_neg at hc
      exact h2 hc), if_neg h]

theorem testSOCKS5Proxy_value (proxyAddress site : String) (net : Net) :
    testSOCKS5Proxy proxyAddress site net =
      if net.socks5Err = false ∧ net.socks5DialErr = false
      then (true, sprintfMs (Milliseconds net.elapsed)) else (false, "") := by
  unfold testSOCKS5Proxy testSOCKS5ProxyTrace
  cases net.socks5Err <;> cases net.socks5DialErr <;> simp

/-- The value of `testProxy` once the target is selected: that of the probe of its type, and
`(false, "")` for any other type. -/
theorem testProxy_value {targetSites : List String} (proxyAddress proxyType : String)
    {net : Net} {site : String}
    (hsite : getRandomTargetSite targetSites net.rand = Except.ok site) :
    testProxy targetSites proxyAddress proxyType net = Except.ok
      (if proxyType = "HTTP" then testHTTPProxy proxyAddress site net
       else if proxyType = "SOCKS4" then testSOCKS4Proxy proxyAddress site net
       else if proxyType = "SOCKS5" then testSOCKS5Proxy proxyAddress site net
       else (false, "")) := by
  unfold testProxy testProxyTrace
  simp only [hsite]
  by_cases h1 : proxyType = "HTTP"
  · rw [if_pos h1, if_pos h1]
    rfl
  · by_cases h2 : proxyType = "SOCKS4"
    · rw [if_neg h1, if_pos h2, if_neg h1, if_pos h2]
      rfl
    · by_cases h3 : proxyType = "SOCKS5"
      · rw [if_neg h1, if_neg h2, if_pos h3, if_neg h1, if_neg h2, if_pos h3]
        rfl
      · rw [if_neg h1, if_neg h2, if_neg h3, if_neg h1, if_neg h2, if_neg h3]

/-- The pair a probe returns on a condition `c`: its shape, and when it is a success. -/
theorem pair_shape (net : Net) (c : Prop) [Decidable c] :
    ∃ status result,
      (if c then (true, sprintfMs (Milliseconds net.elapsed)) else (false, ""))
        = (status, result) ∧
      (result ≠ "" ↔ status = true) ∧
      (status = true → result = toString (net.elapsed / 1000000) ++ " ms") ∧
      (status = false → result = "") ∧
      (status = true ↔ c) := by
  by_cases hc : c
  · refine ⟨true, sprintfMs (Milliseconds net.elapsed), by rw [if_pos hc], ?_, ?_, ?_, ?_⟩
    · exact ⟨fun _ => rfl, fun _ => sprintfMs_ne_empty _⟩
    · intro _; rfl
    · intro h; cases h
    · exact ⟨fun _ => hc, fun _ => rfl⟩
  · refine ⟨false, "", by rw [if_neg hc], ?_, ?_, ?_, ?_⟩
    · exact ⟨fun h => absurd rfl h, fun h => by cases h⟩
    · intro h; cases h
    · intro _; rfl
    · exact ⟨fun h => (by cases h), fun h => absurd h hc⟩

theorem success_iff_of_type {ty : String} {b : Bool} {cH c4 c5 : Prop}
    (h : (ty = "HTTP" ∧ (b = true ↔ cH)) ∨ (ty = "SOCKS4" ∧ (b = true ↔ c4)) ∨
      (ty = "SOCKS5" ∧ (b = true ↔ c5)) ∨
      (ty ≠ "HTTP" ∧ ty ≠ "SOCKS4" ∧ ty ≠ "SOCKS5" ∧ b = false)) :
    b = true ↔ ((ty = "HTTP" ∧ cH) ∨ (ty = "SOCKS4" ∧ c4) ∨ (ty = "SOCKS5" ∧ c5)) := by
  have h1 : ¬ ("HTTP" = "SOCKS4") := by decide
  have h2 : ¬ ("HTTP" = "SOCKS5") := by decide
  have h3 : ¬ ("SOCKS4" = "HTTP") := by decide
  have h4 : ¬ ("SOCKS4" = "SOCKS5") := by decide
  have h5 : ¬ ("SOCKS5" = "HTTP") := by decide
  have h6 : ¬ ("SOCKS5" = "SOCKS4") := by decide
  rcases h with ⟨e, hb⟩ | ⟨e, hb⟩ | ⟨e, hb⟩ | ⟨n1, n2, n3, hb⟩
  · subst e
    simp only [hb, h1, h2, true_and, false_and, or_false]
  · subst e
    simp only [hb, h3, h4, true_and, false_and, or_false, false_or]
  · subst e
    simp only [hb, h5, h6, true_and, false_and, false_or]
  · subst hb
    simp [n1, n2, n3]

/-- C4: with a non-empty target pool a call of `testProxy` whose network operations return
gives a pair (it neither panics nor returns an error value). The boolean is true exactly
when the type is `HTTP` and the response has status 200, or the type is `SOCKS4` and the
dial, the write and the read report no error and the reply starts `00 5A`, or the type is
`SOCKS5` and neither the dialer nor the dial reports an error; so every failing operation
and every unrecognised type give false. The string is non-empty exactly when the boolean is
true: on success it is the decimal number of elapsed milliseconds followed by `" ms"`, on
every failure it is empty, and for an unrecognised type the pair is `(false, "")`. -/
theorem testProxy_latency_iff_success (targetSites : List String)
    (proxyAddress proxyType : String) (net : Net) (hpool : targetSites ≠ []) :
    ∃ status result,
      testProxy targetSites proxyAddress proxyType net = Except.ok (status, result) ∧
      (result ≠ "" ↔ status = true) ∧
      (status = true → result = toString (net.elapsed / 1000000) ++ " ms") ∧
      (status = false → result = "") ∧
      (status = true ↔
        ((proxyType = "HTTP" ∧ net.httpGet = GetResult.resp 200) ∨
         (proxyType = "SOCKS4" ∧ net.dialErr = false ∧ net.writeErr = false ∧
            net.readErr = false ∧ net.readData[0]? = some 0x00 ∧
            net.readData[1]? = some 0x5a) ∨
         (proxyType = "SOCKS5" ∧ net.socks5Err = false ∧ net.socks5DialErr = false))) ∧
      (proxyType ≠ "HTTP" → proxyType ≠ "SOCKS4" → proxyType ≠ "SOCKS5" →
        testProxy targetSites proxyAddress proxyType net = Except.ok (false, "")) := by
  obtain ⟨site, hsite⟩ := getRandomTargetSite_ok targetSites net.rand hpool
  have hval := testProxy_value proxyAddress proxyType hsite
  by_cases h1 : proxyType = "HTTP"
  · rw [if_pos h1, testHTTPProxy_value] at hval
    obtain ⟨status, result, hr, a1, a2, a3, a4⟩ :=
      pair_shape net (net.httpGet = GetResult.resp 200)
    rw [hr] at hval
    exact ⟨status, result, hval, a1, a2, a3, success_iff_of_type (Or.inl ⟨h1, a4⟩),
      fun h => absurd h1 h⟩
  · by_cases h2 : proxyType = "SOCKS4"
    · rw [if_neg h1, if_pos h2, testSOCKS4Proxy_value] at hval
      obtain ⟨status, result, hr, a1, a2, a3, a4⟩ :=
        pair_shape net (net.dialErr = false ∧ net.writeErr = false ∧
          net.readErr = false ∧ net.readData[0]? = some 0x00 ∧
          net.readData[1]? = some 0x5a)
      rw [hr] at hval
      exact ⟨status, result, hval, a1, a2, a3,
        success_iff_of_type (Or.inr (Or.inl ⟨h2, a4⟩)), fun _ h => absurd h2 h⟩
    · by_cases h3 : proxyType = "SOCKS5"
      · rw [if_neg h1, if_neg h2, if_pos h3, testSOCKS5Proxy_value] at hval
        obtain ⟨status, result, hr, a1, a2, a3, a4⟩ :=
          pair_shape net (net.socks5Err = false ∧ net.socks5DialErr = false)
        rw [hr] at hval
        exact ⟨status, result, hval, a1, a2, a3,
          success_iff_of_type (Or.inr (Or.inr (Or.inl ⟨h3, a4⟩))),
          fun _ _ h => absurd h3 h⟩
      · rw [if_neg h1, if_neg h2, if_neg h3] at hval
        exact ⟨false, "", hval, ⟨fun h => absurd rfl h, fun h => (by cases h)⟩,
          fun h => (by cases h), fun _ => rfl,
          success_iff_of_type (Or.inr (Or.inr (Or.inr ⟨h1, h2, h3, rfl⟩))),
          fun _ _ _ => hval⟩

/-- C4 (witness): a one-element pool, the address of an HTTP proxy and an environment in
which the request succeeds. -/
theorem testProxy_latency_iff_success_witness :
    ∃ status result,
      testProxy ["http://example.com"] "1.2.3.4:8080" "HTTP" netGood
        = Except.ok (status, result) ∧
      (result ≠ "" ↔ status = true) ∧
      (status = true → result = toString (netGood.elapsed / 1000000) ++ " ms") ∧
      (status = false → result = "") ∧
      (status = true ↔
        (("HTTP" = "HTTP" ∧ netGood.httpGet = GetResult.resp 200) ∨
         ("HTTP" = "SOCKS4" ∧ netGood.dialErr = false ∧ netGood.writeErr = false ∧
            netGood.readErr = false ∧ netGood.readData[0]? = some 0x00 ∧
            netGood.readData[1]? = some 0x5a) ∨
         ("HTTP" = "SOCKS5" ∧ netGood.socks5Err = false ∧ netGood.socks5DialErr = false))) ∧
      ("HTTP" ≠ "HTTP" → "HTTP" ≠ "SOCKS4" → "HTTP" ≠ "SOCKS5" →
        testProxy ["http://example.com"] "1.2.3.4:8080" "HTTP" netGood
          = Except.ok (false, "")) :=
  testProxy_latency_iff_success ["http://example.com"] "1.2.3.4:8080" "HTTP" netGood
    (by decide)

/-- C9 (as the code has it): the string that the client of `testHTTPProxy` hands to
`url.Parse` is always `"http://"` followed by the proxy address, whatever the address
begins with. -/
theorem testHTTPProxy_proxy_url (proxyAddress targetURL : String) (net : Net) :
    parsedProxyURLs (testHTTPProxyTrace proxyAddress targetURL net).2
      = ["http://" ++ proxyAddress] := by
  unfold testHTTPProxyTrace
  cases net.httpGet with
  | err => simp [parsedProxyURLs]
  | resp s => by_cases hs : s = StatusOK <;> simp [hs, parsedProxyURLs]

/-- C9 (counterexample to the claim as stated): for the address `http://1.2.3.4:8080`,
which already begins with a scheme, the parsed string is not the address itself but
`http://http://1.2.3.4:8080`. -/
theorem testHTTPProxy_scheme_prefixed_twice :
    List.isPrefixOf "http://".data "http://1.2.3.4:8080".data = true ∧
    parsedProxyURLs (testHTTPProxyTrace "http://1.2.3.4:8080" "http://example.com" netGood).2
      = ["http://http://1.2.3.4:8080"] ∧
    parsedProxyURLs (testHTTPProxyTrace "http://1.2.3.4:8080" "http://example.com" netGood).2
      ≠ ["http://1.2.3.4:8080"] := by
  decide

/-! ### The step function and the step relation -/

theorem step_sound {cfg : Config} {s s' : State} {a : Action}
    (h : step cfg s a = some s') : s.panicked = none ∧ Step cfg s a s' := by
  unfold step at h
  cases hp : s.panicked with
  | some p => simp [hp] at h
  | none =>
    refine ⟨rfl, ?_⟩
    have hnp : ¬ (s.panicked.isSome = true) := by simp [hp]
    rw [if_neg hnp] at h
    clear hp hnp
    cases a with
    | send =>
      simp only at h
      split_ifs at h with hc
      cases h
      exact Step.send hc.1 hc.2.1 hc.2.2
    | add =>
      simp only at h
      split_ifs at h with hc
      cases h
      exact Step.add hc
    | go =>
      simp only at h
      split_ifs at h with hc
      cases h
      exact Step.go hc
    | wait =>
      simp only at h
      split_ifs at h with hc
      cases h
      exact Step.wait hc.1 hc.2.1 hc.2.2
    | acquire i =>
      simp only at h
      split_ifs at h with hc
      cases h
      exact Step.acquire i hc.1 hc.2
    | test i =>
      simp only at h
      by_cases hc : s.tasks[i]? = some Phase.probe
      · rw [if_pos hc] at h
        cases ht : cfg.test i with
        | error p =>
          simp only [ht] at h
          cases h
          exact Step.testPanic i p hc ht
        | ok r =>
          obtain ⟨status, result⟩ := r
          simp only [ht] at h
          by_cases hret : cfg.returns i = true
          · rw [if_pos hret] at h
            cases status with
            | true =>
              simp only [if_true] at h
              cases h
              exact Step.testLive i result hc ht hret
            | false =>
              simp only [Bool.false_eq_true, if_false] at h
              cases h
              exact Step.testDead i result hc ht hret
          · rw [if_neg hret] at h
            cases h
      · rw [if_neg hc] at h
        cases h
    | releaseConn i =>
      simp only at h
      split_ifs at h with hc
      cases h
      exact Step.releaseConn i hc.1 hc.2
    | releaseWorker i =>
      simp only at h
      split_ifs at h with hc
      cases h
      exact Step.releaseWorker i hc.1 hc.2
    | wgDone i =>
      simp only at h
      split_ifs at h with hc hwg
      · cases h
        exact Step.wgDonePanic i hc hwg
      · cases h
        exact Step.wgDone i hc hwg

theorem step_complete {cfg : Config} {s s' : State} {a : Action}
    (hp : s.panicked = none) (h : Step cfg s a s') : step cfg s a = some s' := by
  unfold step
  have hnp : ¬ (s.panicked.isSome = true) := by simp [hp]
  rw [if_neg hnp]
  clear hp hnp
  cases h with
  | send hpc hlen hw => simp [hpc, hlen, hw]
  | add hpc => simp [hpc]
  | go hpc => simp [hpc]
  | wait hpc hlen hwg => simp [hpc, hlen, hwg]
  | acquire i hph hsem => simp [hph, hsem]
  | testPanic i p hph ht => simp [hph, ht]
  | testLive i result hph ht hret => simp [hph, ht, hret]
  | testDead i result hph ht hret => simp [hph, ht, hret]
  | releaseConn i hph hsem => simp [hph, hsem]
  | releaseWorker i hph hw => simp [hph, hw]
  | wgDonePanic i hph hwg => simp [hph, hwg]
  | wgDone i hph hwg => simp [hph, hwg]

theorem exec_append (cfg : Config) (s : State) (xs ys : List Action) :
    exec cfg s (xs ++ ys) = (exec cfg s xs).bind (fun s' => exec cfg s' ys) := by
  induction xs generalizing s with
  | nil => simp [exec]
  | cons a xs ih =>
    simp only [List.cons_append, exec]
    cases step cfg s a with
    | none => simp
    | some s' => simpa using ih s'

theorem reachable_init (cfg : Config) : Reachable cfg State.init := ⟨[], rfl⟩

theorem reachable_step {cfg : Config} {s s' : State} {a : Action}
    (hs : Reachable cfg s) (h : step cfg s a = some s') : Reachable cfg s' := by
  obtain ⟨acts, hacts⟩ := hs
  refine ⟨acts ++ [a], ?_⟩
  rw [exec_append, hacts]
  simp [exec, h]

theorem reachable_exec {cfg : Config} {s s' : State} (acts : List Action)
    (hs : Reachable cfg s) (h : exec cfg s acts = some s') : Reachable cfg s' := by
  obtain ⟨pre, hpre⟩ := hs
  refine ⟨pre ++ acts, ?_⟩
  rw [exec_append, hpre]
  simpa using h

/-- Induction over the reachable states. -/
theorem reachable_induction {cfg : Config} {P : State → Prop} (h0 : P State.init)
    (hstep : ∀ s a s', Reachable cfg s → P s → step cfg s a = some s' → P s')
    {s : State} (hs : Reachable cfg s) : P s := by
  obtain ⟨acts, hacts⟩ := hs
  induction acts using List.reverseRecOn generalizing s with
  | nil =>
    simp only [exec, Option.some.injEq] at hacts
    exact hacts ▸ h0
  | append_singleton xs a ih =>
    rw [exec_append] at hacts
    cases hx : exec cfg State.init xs with
    | none => simp [hx] at hacts
    | some s1 =>
      rw [hx] at hacts
      simp only [Option.some_bind, exec] at hacts
      cases h1 : step cfg s1 a with
      | none => simp [h1] at hacts
      | some s2 =>
        rw [h1] at hacts
        cases hacts
        exact hstep s1 a _ ⟨xs, hx⟩ (ih hx) h1

/-! ### List lemmas and the invariant -/

theorem countP_set_of_get {α : Type} (f : α → Bool) {l : List α} {i : Nat} {p : α} (q : α)
    (h : l[i]? = some p) :
    (l.set i q).countP f + (if f p then 1 else 0) = l.countP f + (if f q then 1 else 0) := by
  induction l generalizing i with
  | nil => simp at h
  | cons x xs ih =>
    cases i with
    | zero =>
      simp only [List.getElem?_cons_zero, Option.some.injEq] at h
      subst h
      simp only [List.set_cons_zero, List.countP_cons]
      omega
    | succ j =>
      simp only [List.getElem?_cons_succ] at h
      have := ih h
      simp only [List.set_cons_succ, List.countP_cons]
      omega

theorem sum_map_set_of_get {α : Type} (g : α → Nat) {l : List α} {i : Nat} {p : α} (q : α)
    (h : l[i]? = some p) :
    ((l.set i q).map g).sum + g p = (l.map g).sum + g q := by
  induction l generalizing i with
  | nil => simp at h
  | cons x xs ih =>
    cases i with
    | zero =>
      simp only [List.getElem?_cons_zero, Option.some.injEq] at h
      subst h
      simp only [List.set_cons_zero, List.map_cons, List.sum_cons]
      omega
    | succ j =>
      simp only [List.getElem?_cons_succ] at h
      have := ih h
      simp only [List.set_cons_succ, List.map_cons, List.sum_cons]
      omega

theorem getElem?_set_of_get {α : Type} {l : List α} {i : Nat} {p : α} (q : α)
    (h : l[i]? = some p) (k : Nat) :
    (l.set i q)[k]? = if k = i then some q else l[k]? := by
  have hi : i < l.length := by
    by_contra hc
    rw [List.getElem?_eq_none (by omega)] at h
    cases h
  by_cases hk : k = i
  · subst hk
    simp [hi]
  · simp [hk, List.getElem?_set_ne (Ne.symm hk)]

theorem inv_init (cfg : Config) : Inv cfg State.init := by
  constructor <;> simp [State.init, slotOps, State.expectedOps]


theorem inv_counts_step {cfg : Config} {s s' : State} {a : Action}
    (hI : Inv cfg s) (h : Step cfg s a s') :
    (s'.workers = s'.tasks.countP Phase.holdsWorker
      + (if s'.pc = .add ∨ s'.pc = .spawn then 1 else 0)) ∧
    s'.semaphore = s'.tasks.countP Phase.holdsConn ∧
    (s'.wg = s'.tasks.countP Phase.counted + (if s'.pc = .spawn then 1 else 0)) ∧
    s'.workers ≤ cfg.maxWorkers ∧
    s'.semaphore ≤ cfg.maxConcurrentConnections ∧
    s'.tasks.length ≤ cfg.proxies.length ∧
    (s'.pc = .add ∨ s'.pc = .spawn → s'.tasks.length < cfg.proxies.length) ∧
    (s'.pc = .joined → s'.tasks.length = cfg.proxies.length ∧ s'.wg = 0) := by
  have h1 := hI.workers_eq
  have h2 := hI.sem_eq
  have h3 := hI.wg_eq
  have h4 := hI.workers_le
  have h5 := hI.sem_le
  have h6 := hI.len_le
  have h7 := hI.len_lt
  have h8 := hI.joined
  cases h with
  | send hpc hlen hw =>
    simp only [hpc] at h1 h3 h7 h8
    simp at h1 h3 ⊢
    omega
  | add hpc =>
    simp only [hpc] at h1 h3 h7 h8
    simp at h1 h3 h7 ⊢
    omega
  | go hpc =>
    simp only [hpc] at h1 h3 h7 h8
    simp [Phase.holdsWorker, Phase.holdsConn, Phase.counted] at h1 h3 h7 ⊢
    omega
  | wait hpc hlen hwg =>
    simp only [hpc] at h1 h3 h7 h8
    simp at h1 h3 ⊢
    omega
  | acquire i hph hsem =>
    have c1 := countP_set_of_get Phase.holdsWorker .probe hph
    have c2 := countP_set_of_get Phase.holdsConn .probe hph
    have c3 := countP_set_of_get Phase.counted .probe hph
    simp [Phase.holdsWorker, Phase.holdsConn, Phase.counted] at c1 c2 c3 ⊢
    refine ⟨?_, ?_, ?_, ?_, ?_, ?_, ?_, ?_⟩ <;> first | assumption | omega
  | testPanic i p hph ht => exact ⟨h1, h2, h3, h4, h5, h6, h7, h8⟩
  | testLive i result hph ht hret =>
    have c1 := countP_set_of_get Phase.holdsWorker .releaseConn hph
    have c2 := countP_set_of_get Phase.holdsConn .releaseConn hph
    have c3 := countP_set_of_get Phase.counted .releaseConn hph
    simp [Phase.holdsWorker, Phase.holdsConn, Phase.counted] at c1 c2 c3 ⊢
    refine ⟨?_, ?_, ?_, ?_, ?_, ?_, ?_, ?_⟩ <;> first | assumption | omega
  | testDead i result hph ht hret =>
    have c1 := countP_set_of_get Phase.holdsWorker .releaseConn hph
    have c2 := countP_set_of_get Phase.holdsConn .releaseConn hph
    have c3 := countP_set_of_get Phase.counted .releaseConn hph
    simp [Phase.holdsWorker, Phase.holdsConn, Phase.counted] at c1 c2 c3 ⊢
    refine ⟨?_, ?_, ?_, ?_, ?_, ?_, ?_, ?_⟩ <;> first | assumption | omega
  | releaseConn i hph hsem =>
    have c1 := countP_set_of_get Phase.holdsWorker .releaseWorker hph
    have c2 := countP_set_of_get Phase.holdsConn .releaseWorker hph
    have c3 := countP_set_of_get Phase.counted .releaseWorker hph
    simp [Phase.holdsWorker, Phase.holdsConn, Phase.counted] at c1 c2 c3 ⊢
    refine ⟨?_, ?_, ?_, ?_, ?_, ?_, ?_, ?_⟩ <;> first | assumption | omega
  | releaseWorker i hph hw =>
    have c1 := countP_set_of_get Phase.holdsWorker .done hph
    have c2 := countP_set_of_get Phase.holdsConn .done hph
    have c3 := countP_set_of_get Phase.counted .done hph
    simp [Phase.holdsWorker, Phase.holdsConn, Phase.counted] at c1 c2 c3 ⊢
    refine ⟨?_, ?_, ?_, ?_, ?_, ?_, ?_, ?_⟩ <;> first | assumption | omega
  | wgDonePanic i hph hwg => exact ⟨h1, h2, h3, h4, h5, h6, h7, h8⟩
  | wgDone i hph hwg =>
    have c1 := countP_set_of_get Phase.holdsWorker .exited hph
    have c2 := countP_set_of_get Phase.holdsConn .exited hph
    have c3 := countP_set_of_get Phase.counted .exited hph
    simp [Phase.holdsWorker, Phase.holdsConn, Phase.counted] at c1 c2 c3 ⊢
    refine ⟨?_, ?_, ?_, ?_, ?_, ?_, ?_, ?_⟩ <;> first | assumption | omega | (intro hj; have := h8 hj; omega)


theorem reported_set_same {l : List Phase} {i : Nat} {p : Phase} (q : Phase)
    (h : l[i]? = some p) (hpq : p.reported = q.reported) (k : Nat) :
    (∃ ph, (l.set i q)[k]? = some ph ∧ ph.reported = true) ↔
      (∃ ph, l[k]? = some ph ∧ ph.reported = true) := by
  rw [getElem?_set_of_get q h k]
  by_cases hk : k = i
  · subst hk
    simp [h, hpq]
  · simp [hk]

theorem inv_tested_step {cfg : Config} {s s' : State} {a : Action}
    (hI : Inv cfg s) (h : Step cfg s a s') :
    s'.tested.Nodup ∧
    ∀ i, i ∈ s'.tested ↔ ∃ ph, s'.tasks[i]? = some ph ∧ ph.reported = true := by
  have h1 := hI.tested_nodup
  have h2 := hI.tested_mem
  have htest : ∀ i, s.tasks[i]? = some Phase.probe →
      (s.tested ++ [i]).Nodup ∧
      ∀ k, k ∈ s.tested ++ [i] ↔
        ∃ ph, (s.tasks.set i Phase.releaseConn)[k]? = some ph ∧ ph.reported = true := by
    intro i hph
    have hni : i ∉ s.tested := by
      intro hc
      obtain ⟨ph, e, hr⟩ := (h2 i).1 hc
      rw [hph] at e
      cases e
      simp [Phase.reported] at hr
    refine ⟨?_, ?_⟩
    · rw [List.nodup_append]
      refine ⟨h1, List.nodup_singleton i, ?_⟩
      intro x hx hx'
      simp only [List.mem_singleton] at hx'
      subst hx'
      exact hni hx
    · intro k
      rw [getElem?_set_of_get _ hph k, List.mem_append, List.mem_singleton, h2 k]
      by_cases hk : k = i
      · subst hk
        simp [Phase.reported]
      · simp [hk]
  cases h with
  | send hpc hlen hw => exact ⟨h1, h2⟩
  | add hpc => exact ⟨h1, h2⟩
  | go hpc =>
    refine ⟨h1, ?_⟩
    intro i
    rw [h2 i]
    show _ ↔ ∃ ph, (s.tasks ++ [Phase.acquire])[i]? = some ph ∧ ph.reported = true
    by_cases hi : i < s.tasks.length
    · rw [List.getElem?_append_left hi]
    · rw [List.getElem?_append_right (by omega), List.getElem?_eq_none (by omega)]
      constructor
      · rintro ⟨ph, e, _⟩
        cases e
      · rintro ⟨ph, e, hr⟩
        rcases Nat.eq_zero_or_pos (i - s.tasks.length) with hz | hz
        · rw [hz] at e
          simp only [List.getElem?_cons_zero, Option.some.injEq] at e
          subst e
          simp [Phase.reported] at hr
        · rw [List.getElem?_eq_none (by simp; omega)] at e
          cases e
  | wait hpc hlen hwg => exact ⟨h1, h2⟩
  | acquire i hph hsem =>
    exact ⟨h1, fun k => (h2 k).trans (reported_set_same _ hph (by simp [Phase.reported]) k).symm⟩
  | testPanic i p hph ht => exact ⟨h1, h2⟩
  | testLive i result hph ht hret => exact htest i hph
  | testDead i result hph ht hret => exact htest i hph
  | releaseConn i hph hsem =>
    exact ⟨h1, fun k => (h2 k).trans (reported_set_same _ hph (by simp [Phase.reported]) k).symm⟩
  | releaseWorker i hph hw =>
    exact ⟨h1, fun k => (h2 k).trans (reported_set_same _ hph (by simp [Phase.reported]) k).symm⟩
  | wgDonePanic i hph hwg => exact ⟨h1, h2⟩
  | wgDone i hph hwg =>
    exact ⟨h1, fun k => (h2 k).trans (reported_set_same _ hph (by simp [Phase.reported]) k).symm⟩

theorem inv_output_step {cfg : Config} {s s' : State} {a : Action}
    (hI : Inv cfg s) (h : Step cfg s a s') :
    s'.workingProxies = (s'.tested.filter cfg.isLive).map cfg.entry ∧
    s'.out = s'.tested.map cfg.line := by
  have h1 := hI.working_eq
  have h2 := hI.out_eq
  cases h with
  | send hpc hlen hw => exact ⟨h1, h2⟩
  | add hpc => exact ⟨h1, h2⟩
  | go hpc => exact ⟨h1, h2⟩
  | wait hpc hlen hwg => exact ⟨h1, h2⟩
  | acquire i hph hsem => exact ⟨h1, h2⟩
  | testPanic i p hph ht => exact ⟨h1, h2⟩
  | testLive i result hph ht hret =>
    have hl : cfg.isLive i = true := by simp [Config.isLive, ht]
    have hr : cfg.result i = result := by simp [Config.result, ht]
    simp [h1, h2, List.filter_append, hl, Config.entry, Config.line, hr]
  | testDead i result hph ht hret =>
    have hl : cfg.isLive i = false := by simp [Config.isLive, ht]
    simp [h1, h2, List.filter_append, hl, Config.line]
  | releaseConn i hph hsem => exact ⟨h1, h2⟩
  | releaseWorker i hph hw => exact ⟨h1, h2⟩
  | wgDonePanic i hph hwg => exact ⟨h1, h2⟩
  | wgDone i hph hwg => exact ⟨h1, h2⟩


theorem lt_of_get {α : Type} {l : List α} {k : Nat} {x : α} (h : l[k]? = some x) :
    k < l.length := by
  by_contra hc
  rw [List.getElem?_eq_none (by omega)] at h
  cases h

theorem slotOps_append (slots : List (Nat × SlotOp)) (j : Nat) (op : SlotOp) (k : Nat) :
    slotOps (slots ++ [(j, op)]) k = slotOps slots k ++ (if j = k then [op] else []) := by
  by_cases h : j = k <;> simp [slotOps, List.filter_append, List.filter_cons, h]

theorem expectedOps_set {s : State} {i : Nat} {p : Phase} (q : Phase)
    (h : s.tasks[i]? = some p) (k : Nat) (s' : State)
    (htasks : s'.tasks = s.tasks.set i q) (hpc : s'.pc = s.pc) :
    s'.expectedOps k = if k = i then q.ops else s.expectedOps k := by
  unfold State.expectedOps
  rw [htasks, hpc, getElem?_set_of_get q h k, List.length_set]
  by_cases hk : k = i
  · subst hk
    simp
  · simp [hk]

theorem expectedOps_of_get {s : State} {i : Nat} {p : Phase} (h : s.tasks[i]? = some p) :
    s.expectedOps i = p.ops := by
  unfold State.expectedOps
  rw [h]

/-- A step of goroutine `i` from phase `p` to phase `q` that appends the operations `extra`
to the history keeps the history in agreement with the control state. -/
theorem slots_task_step {s : State} {i : Nat} {p q : Phase} {k : Nat}
    (hk : slotOps s.slots k = s.expectedOps k) (hph : s.tasks[i]? = some p) (s' : State)
    (htasks : s'.tasks = s.tasks.set i q) (hpc : s'.pc = s.pc) (extra : List SlotOp)
    (hslots : slotOps s'.slots k = slotOps s.slots k ++ (if i = k then extra else []))
    (hops : q.ops = p.ops ++ extra) :
    slotOps s'.slots k = s'.expectedOps k := by
  rw [expectedOps_set q hph k s' htasks hpc, hslots, hk]
  by_cases hki : k = i
  · subst hki
    simp [expectedOps_of_get hph, hops]
  · have : ¬ i = k := fun e => hki e.symm
    simp [hki, this]

theorem inv_slots_step {cfg : Config} {s s' : State} {a : Action}
    (hI : Inv cfg s) (h : Step cfg s a s') :
    ∀ k, slotOps s'.slots k = s'.expectedOps k := by
  have h1 := hI.slots_eq
  intro k
  have hk := h1 k
  cases h with
  | send hpc hlen hw =>
    show slotOps (s.slots ++ [(s.tasks.length, SlotOp.takeWorker)]) k = _
    rw [slotOps_append, hk]
    unfold State.expectedOps
    dsimp only
    cases hg : s.tasks[k]? with
    | some ph =>
      have hkl := lt_of_get hg
      have hne : ¬ s.tasks.length = k := by omega
      simp [hne]
    | none =>
      by_cases he : s.tasks.length = k
      · simp [he, hpc]
      · have he' : ¬ k = s.tasks.length := fun e => he e.symm
        simp [he, he']
  | add hpc =>
    show slotOps s.slots k = _
    rw [hk]
    unfold State.expectedOps
    simp [hpc]
  | go hpc =>
    show slotOps s.slots k = _
    rw [hk]
    unfold State.expectedOps
    dsimp only
    by_cases hkl : k < s.tasks.length
    · rw [List.getElem?_append_left hkl, List.getElem?_eq_getElem hkl]
    · rw [List.getElem?_append_right (by omega), List.getElem?_eq_none (by omega)]
      by_cases he : k = s.tasks.length
      · simp [he, Phase.ops, hpc]
      · have hn : ([Phase.acquire] : List Phase)[k - s.tasks.length]? = none :=
          List.getElem?_eq_none (by simp; omega)
        rw [hn]
        simp [he]
  | wait hpc hlen hwg =>
    show slotOps s.slots k = _
    rw [hk]
    unfold State.expectedOps
    simp [hpc]
  | acquire i hph hsem =>
    exact slots_task_step hk hph _ rfl rfl [SlotOp.takeConn] (slotOps_append _ _ _ _) rfl
  | testPanic i p hph ht => exact hk
  | testLive i result hph ht hret =>
    exact slots_task_step hk hph _ rfl rfl [] (by simp) rfl
  | testDead i result hph ht hret =>
    exact slots_task_step hk hph _ rfl rfl [] (by simp) rfl
  | releaseConn i hph hsem =>
    exact slots_task_step hk hph _ rfl rfl [SlotOp.dropConn] (slotOps_append _ _ _ _) rfl
  | releaseWorker i hph hw =>
    exact slots_task_step hk hph _ rfl rfl [SlotOp.dropWorker] (slotOps_append _ _ _ _) rfl
  | wgDonePanic i hph hwg => exact hk
  | wgDone i hph hwg =>
    exact slots_task_step hk hph _ rfl rfl [] (by simp) rfl

theorem inv_step {cfg : Config} {s s' : State} {a : Action}
    (hI : Inv cfg s) (h : step cfg s a = some s') : Inv cfg s' := by
  have hS := (step_sound h).2
  obtain ⟨c1, c2, c3, c4, c5, c6, c7, c8⟩ := inv_counts_step hI hS
  obtain ⟨t1, t2⟩ := inv_tested_step hI hS
  obtain ⟨o1, o2⟩ := inv_output_step hI hS
  exact ⟨c1, c2, c3, c4, c5, c6, c7, c8, t1, t2, o1, o2, inv_slots_step hI hS⟩

theorem reachable_inv {cfg : Config} {s : State} (hs : Reachable cfg s) : Inv cfg s :=
  reachable_induction (inv_init cfg) (fun _ _ _ _ hI h => inv_step hI h) hs


theorem countP_pos_of_get {α : Type} (f : α → Bool) {l : List α} {i : Nat} {p : α}
    (h : l[i]? = some p) (hf : f p = true) : 0 < l.countP f :=
  List.countP_pos_iff.2 ⟨p, List.mem_iff_getElem?.2 ⟨i, h⟩, hf⟩

theorem get_of_countP_pos {α : Type} (f : α → Bool) {l : List α} (h : 0 < l.countP f) :
    ∃ (i : Nat) (p : α), l[i]? = some p ∧ f p = true := by
  obtain ⟨p, hm, hf⟩ := List.countP_pos_iff.1 h
  obtain ⟨i, hi⟩ := List.mem_iff_getElem?.1 hm
  exact ⟨i, p, hi, hf⟩

theorem answers_spec {cfg : Config} {i : Nat} (h : cfg.answers i = true) :
    (∃ r, cfg.test i = Except.ok r) ∧ cfg.returns i = true := by
  unfold Config.answers at h
  cases ht : cfg.test i with
  | error p => simp [ht] at h
  | ok r =>
    simp only [ht] at h
    exact ⟨⟨r, rfl⟩, h⟩

/-- With a non-empty target pool, a call of `testProxy` whose operations return gives an
outcome. -/
theorem answers_of_pool (cfg : Config) (i : Nat) (hpool : cfg.targetSites ≠ [])
    (hret : cfg.returns i = true) : cfg.answers i = true := by
  obtain ⟨r, hr⟩ :=
    testProxy_isOk cfg.targetSites (cfg.proxy i) cfg.proxyType (cfg.net i) hpool
  unfold Config.answers Config.test
  rw [hr]
  exact hret

/-- When every call of `testProxy` returns an outcome, no reachable state is a panic. -/
theorem reachable_no_panic {cfg : Config}
    (hans : ∀ i, i < cfg.proxies.length → cfg.answers i = true) {s : State}
    (hs : Reachable cfg s) : s.panicked = none := by
  refine reachable_induction (P := fun s => s.panicked = none) rfl ?_ hs
  intro s a s' hr hp h
  have hI := reachable_inv hr
  cases (step_sound h).2 with
  | testPanic i p hph ht =>
    have hi : i < cfg.proxies.length := by
      have := lt_of_get hph
      have := hI.len_le
      omega
    obtain ⟨⟨r, hr⟩, _⟩ := answers_spec (hans i hi)
    rw [hr] at ht
    cases ht
  | wgDonePanic i hph hwg =>
    have := countP_pos_of_get Phase.counted hph rfl
    have := hI.wg_eq
    omega
  | _ => exact hp

/-- Every step lowers the measure. -/
theorem step_measure {cfg : Config} {s s' : State} {a : Action} (hI : Inv cfg s)
    (h : step cfg s a = some s') : s'.measure cfg < s.measure cfg := by
  obtain ⟨hp, hS⟩ := step_sound h
  have hlt := hI.len_lt
  have hle := hI.len_le
  unfold State.measure
  cases hS with
  | send hpc hlen hw => simp [hpc, hp, MainPc.remaining]
  | add hpc => simp [hpc, hp, MainPc.remaining]
  | go hpc =>
    have := hlt (Or.inr hpc)
    simp [hpc, hp, MainPc.remaining, Phase.remaining]
    omega
  | wait hpc hlen hwg => simp [hpc, hp, MainPc.remaining]
  | acquire i hph hsem =>
    have := sum_map_set_of_get Phase.remaining .probe hph
    simp [hp, Phase.remaining] at this ⊢
    omega
  | testPanic i p hph ht => simp [hp]
  | testLive i result hph ht hret =>
    have := sum_map_set_of_get Phase.remaining .releaseConn hph
    simp [hp, Phase.remaining] at this ⊢
    omega
  | testDead i result hph ht hret =>
    have := sum_map_set_of_get Phase.remaining .releaseConn hph
    simp [hp, Phase.remaining] at this ⊢
    omega
  | releaseConn i hph hsem =>
    have := sum_map_set_of_get Phase.remaining .releaseWorker hph
    simp [hp, Phase.remaining] at this ⊢
    omega
  | releaseWorker i hph hw =>
    have := sum_map_set_of_get Phase.remaining .done hph
    simp [hp, Phase.remaining] at this ⊢
    omega
  | wgDonePanic i hph hwg => simp [hp]
  | wgDone i hph hwg =>
    have := sum_map_set_of_get Phase.remaining .exited hph
    simp [hp, Phase.remaining] at this ⊢
    omega

/-- A goroutine that holds a connection slot, or is past its probe, can take a step,
provided every call of `testProxy` returns an outcome. -/
theorem task_enabled_of_past_acquire {cfg : Config} {s : State} (hI : Inv cfg s)
    (hans : ∀ i, i < cfg.proxies.length → cfg.answers i = true)
    (hp : s.panicked = none) {i : Nat} {ph : Phase} (hph : s.tasks[i]? = some ph)
    (h1 : ph ≠ .acquire) (h2 : ph ≠ .exited) : ∃ a s', step cfg s a = some s' := by
  cases ph with
  | acquire => exact absurd rfl h1
  | exited => exact absurd rfl h2
  | probe =>
    have hi : i < cfg.proxies.length := by
      have := lt_of_get hph
      have := hI.len_le
      omega
    have hret := (answers_spec (hans i hi)).2
    cases ht : cfg.test i with
    | error p => exact ⟨.test i, _, step_complete hp (Step.testPanic i p hph ht)⟩
    | ok r =>
      obtain ⟨status, result⟩ := r
      cases status with
      | true => exact ⟨.test i, _, step_complete hp (Step.testLive i result hph ht hret)⟩
      | false => exact ⟨.test i, _, step_complete hp (Step.testDead i result hph ht hret)⟩
  | releaseConn =>
    have hpos := countP_pos_of_get Phase.holdsConn hph rfl
    have := hI.sem_eq
    exact ⟨.releaseConn i, _, step_complete hp (Step.releaseConn i hph (by omega))⟩
  | releaseWorker =>
    have hpos := countP_pos_of_get Phase.holdsWorker hph rfl
    have := hI.workers_eq
    exact ⟨.releaseWorker i, _, step_complete hp (Step.releaseWorker i hph (by omega))⟩
  | done =>
    by_cases hwg : s.wg = 0
    · exact ⟨.wgDone i, _, step_complete hp (Step.wgDonePanic i hph hwg)⟩
    · exact ⟨.wgDone i, _, step_complete hp (Step.wgDone i hph hwg)⟩

/-- As long as a goroutine has not exited, some step is enabled, provided the connection
ceiling is at least one and every call of `testProxy` returns an outcome. -/
theorem task_enabled {cfg : Config} {s : State} (hI : Inv cfg s)
    (hans : ∀ i, i < cfg.proxies.length → cfg.answers i = true)
    (hp : s.panicked = none) (hC : 1 ≤ cfg.maxConcurrentConnections)
    {i : Nat} {ph : Phase} (hph : s.tasks[i]? = some ph)
    (h2 : ph ≠ .exited) : ∃ a s', step cfg s a = some s' := by
  by_cases h1 : ph = .acquire
  · subst h1
    by_cases hsem : s.semaphore < cfg.maxConcurrentConnections
    · exact ⟨.acquire i, _, step_complete hp (Step.acquire i hph hsem)⟩
    · have hpos : 0 < s.tasks.countP Phase.holdsConn := by
        have := hI.sem_eq
        omega
      obtain ⟨j, q, hq, hf⟩ := get_of_countP_pos Phase.holdsConn hpos
      refine task_enabled_of_past_acquire hI hans hp hq ?_ ?_
      · rintro rfl; simp [Phase.holdsConn] at hf
      · rintro rfl; simp [Phase.holdsConn] at hf
  · exact task_enabled_of_past_acquire hI hans hp hph h1 h2

/-- Deadlock freedom: with both ceilings at least one and every call of `testProxy`
returning an outcome, a state that satisfies the invariant, is not a panic and in which
`wg.Wait()` has not returned can take a step. -/
theorem progress {cfg : Config} {s : State} (hI : Inv cfg s)
    (hans : ∀ i, i < cfg.proxies.length → cfg.answers i = true) (hp : s.panicked = none)
    (hW : 1 ≤ cfg.maxWorkers) (hC : 1 ≤ cfg.maxConcurrentConnections)
    (hj : s.pc ≠ .joined) : ∃ a s', step cfg s a = some s' := by
  cases hpc : s.pc with
  | joined => exact absurd hpc hj
  | add => exact ⟨.add, _, step_complete hp (Step.add hpc)⟩
  | spawn => exact ⟨.go, _, step_complete hp (Step.go hpc)⟩
  | loop =>
    have hweq := hI.workers_eq
    have hwgeq := hI.wg_eq
    simp only [hpc] at hweq hwgeq
    simp at hweq hwgeq
    by_cases hlen : s.tasks.length < cfg.proxies.length
    · by_cases hw : s.workers < cfg.maxWorkers
      · exact ⟨.send, _, step_complete hp (Step.send hpc hlen hw)⟩
      · have hpos : 0 < s.tasks.countP Phase.holdsWorker := by omega
        obtain ⟨j, q, hq, hf⟩ := get_of_countP_pos Phase.holdsWorker hpos
        refine task_enabled hI hans hp hC hq ?_
        rintro rfl; simp [Phase.holdsWorker] at hf
    · have hlen' : s.tasks.length = cfg.proxies.length := by
        have := hI.len_le
        omega
      by_cases hwg : s.wg = 0
      · exact ⟨.wait, _, step_complete hp (Step.wait hpc hlen' hwg)⟩
      · have hpos : 0 < s.tasks.countP Phase.counted := by omega
        obtain ⟨j, q, hq, hf⟩ := get_of_countP_pos Phase.counted hpos
        refine task_enabled hI hans hp hC hq ?_
        rintro rfl; simp [Phase.counted] at hf

/-- Completion: with both ceilings at least one and every call of `testProxy` returning an
outcome, from every reachable state the loop can be run to the end, where `wg.Wait()` has
returned. -/
theorem reachable_completes {cfg : Config}
    (hans : ∀ i, i < cfg.proxies.length → cfg.answers i = true)
    (hW : 1 ≤ cfg.maxWorkers) (hC : 1 ≤ cfg.maxConcurrentConnections) :
    ∀ (n : Nat) (s : State), Reachable cfg s → s.measure cfg ≤ n →
      ∃ acts s', exec cfg s acts = some s' ∧ s'.pc = .joined := by
  intro n
  induction n with
  | zero =>
    intro s hs hm
    have hp := reachable_no_panic hans hs
    simp [State.measure, hp] at hm
  | succ n ih =>
    intro s hs hm
    by_cases hj : s.pc = .joined
    · exact ⟨[], s, rfl, hj⟩
    · obtain ⟨a, s1, h1⟩ :=
        progress (reachable_inv hs) hans (reachable_no_panic hans hs) hW hC hj
      have hlt := step_measure (reachable_inv hs) h1
      obtain ⟨acts, s', hacts, hj'⟩ := ih s1 (reachable_step hs h1) (by omega)
      exact ⟨a :: acts, s', by simp [exec, h1, hacts], hj'⟩


/-! ### Consequences of the invariant -/

theorem proxy_of_lt (cfg : Config) {i : Nat} (hi : i < cfg.proxies.length) :
    cfg.proxies[i]? = some (cfg.proxy i) := by
  simp [Config.proxy, List.getD, List.getElem?_eq_getElem hi]

theorem tested_lt {cfg : Config} {s : State} (hI : Inv cfg s) {i : Nat}
    (hi : i ∈ s.tested) : i < cfg.proxies.length := by
  obtain ⟨ph, hph, _⟩ := (hI.tested_mem i).1 hi
  have := lt_of_get hph
  have := hI.len_le
  omega

theorem entry_of_isLive (cfg : Config) {i : Nat} (h : cfg.isLive i = true) :
    cfg.test i = Except.ok (true, toString ((cfg.net i).elapsed / 1000000) ++ " ms") ∧
    cfg.entry i
      = cfg.proxy i ++ "   |  " ++ toString ((cfg.net i).elapsed / 1000000) ++ " ms" := by
  unfold Config.isLive at h
  unfold Config.entry Config.result
  cases ht : cfg.test i with
  | error p => simp [ht] at h
  | ok r =>
    obtain ⟨status, result⟩ := r
    cases status with
    | false => simp [ht] at h
    | true =>
      rcases testProxy_cases ht with e | e
      · simp only [Prod.mk.injEq, true_and] at e
        subst e
        simp [sprintfMs, Milliseconds, String.append_assoc]
      · simp at e

/-- When `wg.Wait()` has returned, the indices tested are exactly those of the list. -/
theorem joined_tested {cfg : Config} {s : State} (hI : Inv cfg s) (hj : s.pc = .joined) :
    s.tested.Perm (List.range cfg.proxies.length) := by
  obtain ⟨hlen, hwg⟩ := hI.joined hj
  have hc : s.tasks.countP Phase.counted = 0 := by
    have := hI.wg_eq
    omega
  refine (List.perm_ext_iff_of_nodup hI.tested_nodup (List.nodup_range _)).2 ?_
  intro i
  rw [List.mem_range]
  constructor
  · exact tested_lt hI
  · intro hi
    have hi' : i < s.tasks.length := by omega
    refine (hI.tested_mem i).2 ⟨s.tasks[i], List.getElem?_eq_getElem hi', ?_⟩
    have hn : ¬ (0 < s.tasks.countP Phase.counted) := by omega
    have hcnt : Phase.counted s.tasks[i] = false := by
      by_contra hcon
      exact hn (countP_pos_of_get Phase.counted (List.getElem?_eq_getElem hi')
        (by simpa using hcon))
    cases hph : s.tasks[i] with
    | exited => rfl
    | _ => rw [hph] at hcnt; simp [Phase.counted] at hcnt

/-- C5: in every reachable state of the dispatch loop, `workingProxies` lists, for a
duplicate-free list of indices of the proxy list, one entry each; the call of `testProxy`
for each of these indices returned success, and its entry is the proxy address, then
`"   |  "`, then the decimal elapsed milliseconds (a natural number), then `" ms"`. An
index whose call returned failure is not among them. -/
theorem workingProxies_only_live (cfg : Config) (s : State) (hs : Reachable cfg s) :
    ∃ idx : List Nat, idx.Nodup ∧ s.workingProxies = idx.map cfg.entry ∧
      (∀ i ∈ idx, ∃ (p : String) (ms : Nat),
        cfg.proxies[i]? = some p ∧
        cfg.test i = Except.ok (true, toString ms ++ " ms") ∧
        cfg.entry i = p ++ "   |  " ++ toString ms ++ " ms") ∧
      (∀ i result, cfg.test i = Except.ok (false, result) → i ∉ idx) := by
  have hI := reachable_inv hs
  refine ⟨s.tested.filter cfg.isLive, hI.tested_nodup.filter _, hI.working_eq, ?_, ?_⟩
  · intro i hi
    obtain ⟨hit, hlive⟩ := List.mem_filter.1 hi
    obtain ⟨ht, he⟩ := entry_of_isLive cfg hlive
    exact ⟨cfg.proxy i, (cfg.net i).elapsed / 1000000,
      proxy_of_lt cfg (tested_lt hI hit), ht, he⟩
  · intro i result ht hi
    have hlive := (List.mem_filter.1 hi).2
    simp [Config.isLive, ht] at hlive

/-- C5 (witness): the sample run, after which the one live proxy of two has its entry. -/
theorem workingProxies_only_live_witness :
    ∃ idx : List Nat, idx.Nodup ∧ stateDemo.workingProxies = idx.map cfgDemo.entry ∧
      (∀ i ∈ idx, ∃ (p : String) (ms : Nat),
        cfgDemo.proxies[i]? = some p ∧
        cfgDemo.test i = Except.ok (true, toString ms ++ " ms") ∧
        cfgDemo.entry i = p ++ "   |  " ++ toString ms ++ " ms") ∧
      (∀ i result, cfgDemo.test i = Except.ok (false, result) → i ∉ idx) :=
  workingProxies_only_live cfgDemo stateDemo ⟨runDemo, by decide⟩

/-- C7: in every reachable state of the dispatch loop the number of goroutines that were
started and have not yet given back their worker slot is at most `maxWorkers`, the number of
goroutines inside `testProxy` is at most `maxConcurrentConnections`, neither channel holds
more than its capacity, and the channel operations made for each proxy are, in order, an
initial part of: take the worker slot, take the connection slot, give back the connection
slot, give back the worker slot. A goroutine is not counted once it has run its deferred
`<-workers`, although its deferred `wg.Done()` is still to come. -/
theorem dispatch_respects_ceilings (cfg : Config) (s : State) (hs : Reachable cfg s) :
    s.tasks.countP Phase.holdsWorker ≤ cfg.maxWorkers ∧
    s.tasks.countP Phase.inProbe ≤ cfg.maxConcurrentConnections ∧
    s.workers ≤ cfg.maxWorkers ∧
    s.semaphore ≤ cfg.maxConcurrentConnections ∧
    (∀ i, slotOps s.slots i <+:
      [SlotOp.takeWorker, SlotOp.takeConn, SlotOp.dropConn, SlotOp.dropWorker]) := by
  have hI := reachable_inv hs
  have hw := hI.workers_eq
  have hsem := hI.sem_eq
  have hwl := hI.workers_le
  have hsl := hI.sem_le
  have hmono : s.tasks.countP Phase.inProbe ≤ s.tasks.countP Phase.holdsConn := by
    apply List.countP_mono_left
    intro ph _ h
    cases ph <;> first | rfl | simp [Phase.inProbe] at h
  refine ⟨by omega, by omega, hwl, hsl, ?_⟩
  intro i
  rw [hI.slots_eq i]
  unfold State.expectedOps
  cases s.tasks[i]? with
  | some ph => cases ph <;> simp [Phase.ops, List.IsPrefix]
  | none =>
    dsimp only
    split_ifs <;> simp [List.IsPrefix]

/-- C7 (witness): the sample run at the moment the first goroutine holds both slots. -/
theorem dispatch_respects_ceilings_witness :
    stateDemoMid.tasks.countP Phase.holdsWorker ≤ cfgDemo.maxWorkers ∧
    stateDemoMid.tasks.countP Phase.inProbe ≤ cfgDemo.maxConcurrentConnections ∧
    stateDemoMid.workers ≤ cfgDemo.maxWorkers ∧
    stateDemoMid.semaphore ≤ cfgDemo.maxConcurrentConnections ∧
    (∀ i, slotOps stateDemoMid.slots i <+:
      [SlotOp.takeWorker, SlotOp.takeConn, SlotOp.dropConn, SlotOp.dropWorker]) :=
  dispatch_respects_ceilings cfgDemo stateDemoMid ⟨runDemo.take 5, by decide⟩

/-- C8 (the code at the failing input): when `target_sites.txt` cannot be opened, the
choice is 1 and the proxy file holds one line, `main` prints the error of `loadTargetSites`
and goes on to the dispatch loop with an empty target pool; there a goroutine is started,
takes both slots and calls `testProxy`, whose `getRandomTargetSite` panics in `rand.Intn`
on the empty slice. -/
theorem empty_target_pool_reaches_dispatch_and_panics :
    mainSetup FileScan.openErr 1 (FileScan.scanned ["1.2.3.4:8080"] false)
      = Setup.dispatch [Output.errorReadTargetSites] cfgNoTargets.targetSites
          cfgNoTargets.proxyType cfgNoTargets.proxies ∧
    cfgNoTargets.targetSites = [] ∧
    (exec cfgNoTargets State.init [.send, .add, .go, .acquire 0, .test 0]).map
      (fun s => (s.tasks, s.panicked))
      = some ([Phase.probe], some Panic.intnInvalidArgument) ∧
    getRandomTargetSite cfgNoTargets.targetSites (cfgNoTargets.net 0).rand
      = Except.error Panic.intnInvalidArgument :=
  ⟨by decide, rfl, by decide, rfl⟩

/-- C10 (as the code has it): with both ceilings at least one, and provided every call of
`testProxy` returns an outcome, the dispatch loop always runs to the end (no reachable state is stuck before `wg.Wait()`
has returned, every step lowers a bound on the steps left, and the end can be reached from
every reachable state). Once `wg.Wait()` has returned: if every probe
failed, `workingProxies` is empty and `main` prints only that no working proxies were
found, writing no file and calling `Summary` not at all; if some probe succeeded, `main`
writes the file and calls `Summary` with the line count and the number of live proxies. -/
theorem summary_only_when_some_live (cfg : Config) (sites linecount : Int)
    (hW : 1 ≤ cfg.maxWorkers) (hC : 1 ≤ cfg.maxConcurrentConnections)
    (hans : ∀ i, i < cfg.proxies.length → cfg.answers i = true) :
    (∀ s, Reachable cfg s → s.pc ≠ .joined → ∃ a s', step cfg s a = some s') ∧
    (∀ s a s', Reachable cfg s → step cfg s a = some s' →
      s'.measure cfg < s.measure cfg) ∧
    (∀ s, Reachable cfg s → ∃ acts s', exec cfg s acts = some s' ∧ s'.pc = .joined) ∧
    (∀ s, Reachable cfg s → s.pc = .joined →
      ((∀ i, i < cfg.proxies.length → cfg.isLive i = false) →
        s.workingProxies = [] ∧
        mainFinish cfg.proxyType sites linecount s.workingProxies
          = [Output.noWorking cfg.proxyType] ∧
        hasSummary (mainFinish cfg.proxyType sites linecount s.workingProxies) = false) ∧
      ((∃ i, i < cfg.proxies.length ∧ cfg.isLive i = true) →
        mainFinish cfg.proxyType sites linecount s.workingProxies
          = [Output.writeFile ("Working_" ++ cfg.proxyType ++ ".txt") s.workingProxies,
             Output.summary sites linecount s.workingProxies.length
               (linecount - s.workingProxies.length),
             Output.sleep 15] ∧
        hasSummary (mainFinish cfg.proxyType sites linecount s.workingProxies) = true)) := by
  refine ⟨?_, ?_, ?_, ?_⟩
  · intro s hs hj
    exact progress (reachable_inv hs) hans (reachable_no_panic hans hs) hW hC hj
  · intro s a s' hs h
    exact step_measure (reachable_inv hs) h
  · intro s hs
    exact reachable_completes hans hW hC (s.measure cfg) s hs (Nat.le_refl _)
  · intro s hs hj
    have hI := reachable_inv hs
    have hperm := joined_tested hI hj
    refine ⟨?_, ?_⟩
    · intro hall
      have hnil : s.workingProxies = [] := by
        rw [hI.working_eq]
        have : s.tested.filter cfg.isLive = [] := by
          rw [List.filter_eq_nil_iff]
          intro i hi
          simp [hall i (tested_lt hI hi)]
        rw [this]
        rfl
      rw [hnil]
      exact ⟨rfl, by simp [mainFinish], by simp [mainFinish, hasSummary]⟩
    · rintro ⟨i, hi, hlive⟩
      have hmem : i ∈ s.tested := hperm.mem_iff.2 (List.mem_range.2 hi)
      have hne : s.workingProxies.length ≠ 0 := by
        rw [hI.working_eq, List.length_map]
        exact List.length_pos.2
          (List.ne_nil_of_mem (List.mem_filter.2 ⟨hmem, hlive⟩)) |>.ne'
      simp [mainFinish, hne, Summary, hasSummary]

/-- C10 (witness): the sample configuration, with one live and one dead proxy. -/
theorem summary_only_when_some_live_witness :
    (∀ s, Reachable cfgDemo s → s.pc ≠ .joined → ∃ a s', step cfgDemo s a = some s') ∧
    (∀ s a s', Reachable cfgDemo s → step cfgDemo s a = some s' →
      s'.measure cfgDemo < s.measure cfgDemo) ∧
    (∀ s, Reachable cfgDemo s →
      ∃ acts s', exec cfgDemo s acts = some s' ∧ s'.pc = .joined) ∧
    (∀ s, Reachable cfgDemo s → s.pc = .joined →
      ((∀ i, i < cfgDemo.proxies.length → cfgDemo.isLive i = false) →
        s.workingProxies = [] ∧
        mainFinish cfgDemo.proxyType 1 2 s.workingProxies
          = [Output.noWorking cfgDemo.proxyType] ∧
        hasSummary (mainFinish cfgDemo.proxyType 1 2 s.workingProxies) = false) ∧
      ((∃ i, i < cfgDemo.proxies.length ∧ cfgDemo.isLive i = true) →
        mainFinish cfgDemo.proxyType 1 2 s.workingProxies
          = [Output.writeFile ("Working_" ++ cfgDemo.proxyType ++ ".txt") s.workingProxies,
             Output.summary 1 2 s.workingProxies.length (2 - s.workingProxies.length),
             Output.sleep 15] ∧
        hasSummary (mainFinish cfgDemo.proxyType 1 2 s.workingProxies) = true)) :=
  summary_only_when_some_live cfgDemo 1 2 (by decide) (by decide) (by decide)

/-- C10 (counterexample to the claim as stated): a run with one proxy, whose probe fails,
runs to the end, and `main` then prints that no working proxies were found; no `Summary`
report is produced, neither during the loop nor after it. -/
theorem all_dead_run_prints_no_summary :
    exec cfgDead State.init runSingle = some stateDead ∧
    stateDead.pc = MainPc.joined ∧
    cfgDead.test 0 = Except.ok (false, "") ∧
    mainFinish cfgDead.proxyType 1 1 stateDead.workingProxies = [Output.noWorking "HTTP"] ∧
    hasSummary (stateDead.out ++ mainFinish cfgDead.proxyType 1 1 stateDead.workingProxies)
      = false :=
  ⟨by decide, rfl, rfl, by decide, by decide⟩

/-! ### Counting and scanning lines -/

theorem splitNewline_ne_nil (l : List Char) : splitNewline l ≠ [] := by
  cases l with
  | nil => simp [splitNewline]
  | cons c cs =>
    unfold splitNewline
    split_ifs
    · simp
    · cases splitNewline cs <;> simp

theorem splitNewline_cons_newline (d : Char) (ds : List Char) (hd : d.toNat = 10) :
    splitNewline (d :: ds) = [] :: splitNewline ds := by
  simp [splitNewline, hd]

theorem splitNewline_cons_other (d : Char) (ds : List Char) (hd : d.toNat ≠ 10)
    (p : List Char) (ps : List (List Char)) (h : splitNewline ds = p :: ps) :
    splitNewline (d :: ds) = (d :: p) :: ps := by
  simp [splitNewline, hd, h]

theorem splitNewline_append_newline (l : List Char) (c : Char) (hc : c.toNat = 10) :
    splitNewline (l ++ [c]) = splitNewline l ++ [[]] := by
  induction l with
  | nil => simp [splitNewline, hc]
  | cons d ds ih =>
    rw [List.cons_append]
    by_cases hd : d.toNat = 10
    · rw [splitNewline_cons_newline _ _ hd, splitNewline_cons_newline _ _ hd, ih]
      rfl
    · cases hs : splitNewline ds with
      | nil => exact absurd hs (splitNewline_ne_nil ds)
      | cons p ps =>
        rw [splitNewline_cons_other d ds hd p ps hs,
          splitNewline_cons_other d (ds ++ [c]) hd p (ps ++ [[]]) (by rw [ih, hs]; rfl)]
        rfl

theorem splitNewline_append_other (l : List Char) (c : Char) (hc : c.toNat ≠ 10) :
    ∃ ps p, splitNewline (l ++ [c]) = ps ++ [p] ∧ p ≠ [] := by
  induction l with
  | nil => exact ⟨[], [c], by simp [splitNewline, hc], by simp⟩
  | cons d ds ih =>
    obtain ⟨ps, p, hps, hp⟩ := ih
    rw [List.cons_append]
    by_cases hd : d.toNat = 10
    · exact ⟨[] :: ps, p, by rw [splitNewline_cons_newline _ _ hd, hps]; rfl, hp⟩
    · cases ps with
      | nil =>
        exact ⟨[], d :: p, by rw [splitNewline_cons_other d _ hd p [] hps]; rfl, by simp⟩
      | cons q qs =>
        exact ⟨(d :: q) :: qs, p,
          by rw [splitNewline_cons_other d _ hd q (qs ++ [p]) hps]; rfl, hp⟩

/-- The last piece of `strings.Split(s, "\n")` is empty exactly when `s` is empty or ends
with a newline. -/
theorem splitNewline_getLast (l : List Char) :
    (splitNewline l).getLast? = some [] ↔
      (l = [] ∨ ∃ c, l.getLast? = some c ∧ c.toNat = 10) := by
  rcases List.eq_nil_or_concat l with h | ⟨L, b, h⟩
  · subst h
    simp [splitNewline]
  · rw [List.concat_eq_append] at h
    subst h
    by_cases hb : b.toNat = 10
    · rw [splitNewline_append_newline L b hb]
      simp [hb]
    · obtain ⟨ps, p, hps, hp⟩ := splitNewline_append_other L b hb
      rw [hps]
      simp [hb, hp]

theorem scanPieces_single (p : List Char) (hp : p ≠ [])
    (hlong : ¬ MaxScanTokenSize ≤ (String.mk p).utf8ByteSize) :
    scanPieces [p] = ([String.mk (dropCR p)], false) := by
  rw [scanPieces, if_neg hp, if_neg hlong]

theorem scanPieces_single_long (p : List Char) (hp : p ≠ [])
    (hlong : MaxScanTokenSize ≤ (String.mk p).utf8ByteSize) :
    scanPieces [p] = ([], true) := by
  rw [scanPieces, if_neg hp, if_pos hlong]

theorem scanPieces_cons_long (p q : List Char) (qs : List (List Char))
    (hlong : MaxScanTokenSize ≤ (String.mk p).utf8ByteSize) :
    scanPieces (p :: q :: qs) = ([], true) := by
  rw [scanPieces, if_pos hlong]
  simp

theorem scanPieces_cons (p q : List Char) (qs : List (List Char))
    (hlong : ¬ MaxScanTokenSize ≤ (String.mk p).utf8ByteSize) :
    scanPieces (p :: q :: qs)
      = (String.mk (dropCR p) :: (scanPieces (q :: qs)).1, (scanPieces (q :: qs)).2) := by
  rw [scanPieces, if_neg hlong]
  simp

theorem scanPieces_length (ps : List (List Char)) (hne : ps ≠ [])
    (herr : (scanPieces ps).2 = false) :
    (scanPieces ps).1.length + (if ps.getLast? = some [] then 1 else 0) = ps.length := by
  induction ps with
  | nil => exact absurd rfl hne
  | cons p rest ih =>
    cases rest with
    | nil =>
      by_cases hp : p = []
      · subst hp
        simp [scanPieces]
      · by_cases hlong : MaxScanTokenSize ≤ (String.mk p).utf8ByteSize
        · rw [scanPieces_single_long p hp hlong] at herr
          cases herr
        · rw [scanPieces_single p hp hlong]
          simp [hp]
    | cons q qs =>
      by_cases hlong : MaxScanTokenSize ≤ (String.mk p).utf8ByteSize
      · rw [scanPieces_cons_long p q qs hlong] at herr
        cases herr
      · rw [scanPieces_cons p q qs hlong] at herr ⊢
        have ih' := ih (by simp) herr
        rw [List.getLast?_cons_cons]
        simp only [List.length_cons] at ih' ⊢
        omega


/-- When the scan of a file reports no error, `CountLines` of the file is the number of
entries `readProxiesFromFile` returns, plus one if the content is empty or ends with a
newline. -/
theorem CountLines_eq_entries (data : String)
    (herr : (readProxiesFromFile (scanFile (some data))).2 = false) :
    (CountLines (some data)).1
      = ((readProxiesFromFile (scanFile (some data))).1.length : Nat)
        + (if data.data = [] ∨ endsWithNewline data = true then 1 else 0) := by
  have hne := splitNewline_ne_nil data.data
  have herr' : (scanPieces (splitNewline data.data)).2 = false := by
    simpa [readProxiesFromFile, scanFile] using herr
  have hlen := scanPieces_length (splitNewline data.data) hne herr'
  have hlast := splitNewline_getLast data.data
  have hends : (data.data = [] ∨ endsWithNewline data = true) ↔
      (data.data = [] ∨ ∃ c, data.data.getLast? = some c ∧ c.toNat = 10) := by
    unfold endsWithNewline
    cases data.data.getLast? <;> simp
  simp only [CountLines, readProxiesFromFile, scanFile, List.length_map]
  by_cases h : data.data = [] ∨ endsWithNewline data = true
  · rw [if_pos h]
    rw [if_pos (hlast.2 (hends.1 h))] at hlen
    exact_mod_cast hlen.symm
  · rw [if_neg h]
    rw [if_neg (fun c => h (hends.2 (hlast.1 c)))] at hlen
    exact_mod_cast hlen.symm

/-- C11 (the code at the failing input): for the proxy file `1.2.3.4:8080` ended by a
newline, `CountLines` returns 2 while `readProxiesFromFile` returns the one entry; `main`
dispatches that one proxy, its probe succeeds, no `DEAD` line is printed, and `Summary` is
called with 2 lines and 1 live proxy, so that it prints `TOTAL LINES = 2` and
`TOTAL DEAD = 1` although one proxy was read and none was dead. -/
theorem summary_counts_trailing_newline_as_line :
    CountLines (some proxyFileDemo) = (2, false) ∧
    readProxiesFromFile (scanFile (some proxyFileDemo)) = (["1.2.3.4:8080"], false) ∧
    mainSetup (scanFile (some targetFileDemo)) 1 (scanFile (some proxyFileDemo))
      = Setup.dispatch [] cfgLive.targetSites cfgLive.proxyType cfgLive.proxies ∧
    exec cfgLive State.init runSingle = some stateLive ∧
    stateLive.pc = MainPc.joined ∧
    stateLive.tested.length = 1 ∧
    stateLive.out.countP Output.isDead = 0 ∧
    mainFinish cfgLive.proxyType (CountLines (some targetFileDemo)).1
        (CountLines (some proxyFileDemo)).1 stateLive.workingProxies
      = [Output.writeFile "Working_HTTP.txt" ["1.2.3.4:8080   |  42 ms"],
         Output.summary 2 2 1 1,
         Output.sleep 15] := by
  decide

end ProxyCheck
